import Mathlib

/-!
# HTTP_POST load client (`client.c`): global counter, send-with-retry, producer, argument parsing

A shallow embedding of `src/client.c`.

* `uint32_t` fields are natural numbers; every `++` on them is taken modulo `2^32`.
* `int` results of system calls are integers supplied by the environment.
* The mutex of `global_counter_t` serialises the counter operations, so each
  operation is one atomic state transformer.
* A `sender_ctrl_t` carries a ghost flag `freed`, set by `free(sender_ctrl)`;
  a function that dereferences a freed control block has no defined result (`none`).
-/

namespace HttpPost

/-! ## Constants (client.c:28-36) -/

/-- Number of values of a `uint32_t`; arithmetic on the counter fields wraps at it. -/
def UINT32_MOD : Nat := 4294967296

/-- The macro `SEND_MSG_MAX_TRY` (client.c:34). -/
def SEND_MSG_MAX_TRY : Nat := 3

/-- The macro `SENDER_THREAD_CNT` (client.c:35). -/
def SENDER_THREAD_CNT : Nat := 10

/-- The macro `SEND_MSG_CNT` (client.c:36). -/
def SEND_MSG_CNT : Nat := 50000

/-! ## Global counter (client.c:41-48, 102-197) -/

/-- The data fields of `struct global_counter_s`. -/
structure global_counter_t where
  started : Bool
  total : Nat
  success : Nat
  failure : Nat
deriving DecidableEq

/-- The function `gcounter_init`: `memzero` of the whole structure, then the result of
`pthread_mutex_init` is returned (`rc` when it is non-zero, `0` otherwise). -/
def gcounter_init (mutex_init_rc : Int) : Int × global_counter_t :=
  let p : global_counter_t := { started := false, total := 0, success := 0, failure := 0 }
  if mutex_init_rc ≠ 0 then (mutex_init_rc, p) else (0, p)

/-- The function `gcounter_signal_start`: the state after the call and the number of
`pthread_cond_broadcast` calls it made. -/
def gcounter_signal_start (p : global_counter_t) : global_counter_t × Nat :=
  let broadcasts := if !p.started then 1 else 0
  ({ p with started := true }, broadcasts)

/-- The function `gcounter_inc_success`: `p->success++; p->total++;`. -/
def gcounter_inc_success (p : global_counter_t) : global_counter_t :=
  { p with success := (p.success + 1) % UINT32_MOD, total := (p.total + 1) % UINT32_MOD }

/-- The function `gcounter_inc_failure`: `p->failure++; p->total++;`. -/
def gcounter_inc_failure (p : global_counter_t) : global_counter_t :=
  { p with failure := (p.failure + 1) % UINT32_MOD, total := (p.total + 1) % UINT32_MOD }

/-- The function `gcounter_get_snapshot`: copies `success`, `failure` and `total` of
`src` into `dst`; `src` is not modified and `dst->started` is not written. -/
def gcounter_get_snapshot (src dst : global_counter_t) : global_counter_t :=
  { dst with success := src.success, failure := src.failure, total := src.total }

/-- The function `gcounter_get_total`. -/
def gcounter_get_total (p : global_counter_t) : Nat :=
  p.total

/-- The operations a thread can perform on the global counter once it is initialised. -/
inductive gcounter_op where
  | signal_start
  | inc_success
  | inc_failure
  | get_snapshot
  | get_total
deriving DecidableEq

/-- The counter after one operation (the two readers leave it as it is). -/
def gcounter_step (p : global_counter_t) : gcounter_op → global_counter_t
  | .signal_start => (gcounter_signal_start p).1
  | .inc_success => gcounter_inc_success p
  | .inc_failure => gcounter_inc_failure p
  | .get_snapshot => p
  | .get_total => p

/-- The counter after a sequence of operations, the first of the list first. -/
def gcounter_run (p : global_counter_t) (ops : List gcounter_op) : global_counter_t :=
  ops.foldl gcounter_step p

/-! ## Sender: connection control block, environment results, trace -/

/-- The data fields of `struct sender_ctrl_s` the send path reads or writes, and the
ghost flag `freed`, which `free(sender_ctrl)` sets. -/
structure sender_ctrl_t where
  epfd : Int
  sockfd : Int
  resp_ready : Bool
  freed : Bool
deriving DecidableEq

/-- The calls whose order and number the properties speak about, as they are issued. -/
inductive action where
  | signal_start
  | broadcast
  | write (fd : Int) (len : Nat)
  | reset_resp_ready
  | epoll_add (fd : Int)
  | wait
  | epoll_del (fd : Int)
  | read (fd : Int)
  | close (fd : Int)
  | socket
  | setsockopt (fd : Int)
  | connect (fd : Int)
  | free_ctrl
  | inc_success
  | inc_failure
deriving DecidableEq

/-- What the operating system and the event loop answer during one pass of the retry
loop of `send_http_msg`: the results of `write`, of `epoll_ctl(EPOLL_CTL_ADD)`, of the
wait, of `read`, and of `socket`, `setsockopt` and `connect` in the reconnect that
follows a failed attempt.

`notified_early` says that `notify_sender` ran between the reset of `resp_ready` and
the first test of it in `sender_wait`. `wakeups` lists the returns of
`pthread_cond_timedwait` before the deadline: the return code, and whether
`notify_sender` ran since the previous test of `resp_ready`. When the list is used up
the deadline has passed and the next `pthread_cond_timedwait` returns `ETIMEDOUT`. -/
structure attempt_results where
  write_rc : Int
  epoll_add_rc : Int
  notified_early : Bool
  wakeups : List (Int × Bool)
  read_rc : Int
  socket_rc : Int
  setsockopt_rc : Int
  connect_rc : Int
deriving DecidableEq

/-- The state one sender thread works on: the global counter, its own control block and
the calls issued so far (oldest first). -/
structure world where
  gcounter : global_counter_t
  ctrl : sender_ctrl_t
  trace : List action
deriving DecidableEq

/-- The error code `ETIMEDOUT` of Linux. -/
def ETIMEDOUT : Int := 110

/-- Number of calls of `send_http_msg_once` in a trace: each call starts with exactly one
`gcounter_signal_start`, which nothing else on the send path calls. -/
def attempts (t : List action) : Nat :=
  t.count action.signal_start

/-- Number of counter updates (`gcounter_inc_success` or `gcounter_inc_failure`) in a trace. -/
def counter_updates (t : List action) : Nat :=
  t.count action.inc_success + t.count action.inc_failure

/-- Number of `close`, `socket` and `connect` calls in a trace. -/
def reconnect_calls (t : List action) : Nat :=
  (t.filter fun a =>
    match a with
    | .close _ => true
    | .socket => true
    | .connect _ => true
    | _ => false).length

/-! ## Sender: socket handling (client.c:199-263) -/

/-- The function `sender_socket_open`. When `socket` fails the control block itself is
freed (client.c:207) and `-1` is returned; when `setsockopt` fails the socket is closed. -/
def sender_socket_open (r : attempt_results) (w : world) : Option (Int × world) :=
  if w.ctrl.freed then none
  else
    let w1 : world :=
      { w with ctrl := { w.ctrl with sockfd := r.socket_rc }, trace := w.trace ++ [action.socket] }
    if r.socket_rc < 0 then
      some (-1, { w1 with ctrl := { w1.ctrl with freed := true },
                          trace := w1.trace ++ [action.free_ctrl] })
    else
      let w2 : world := { w1 with trace := w1.trace ++ [action.setsockopt w1.ctrl.sockfd] }
      if r.setsockopt_rc ≠ 0 then
        some (-1, { w2 with trace := w2.trace ++ [action.close w2.ctrl.sockfd] })
      else some (0, w2)

/-- The function `sender_socket_close`. -/
def sender_socket_close (w : world) : Option world :=
  if w.ctrl.freed then none
  else some { w with trace := w.trace ++ [action.close w.ctrl.sockfd] }

/-- The function `sender_socket_connect`. -/
def sender_socket_connect (r : attempt_results) (w : world) : Option (Int × world) :=
  if w.ctrl.freed then none
  else
    let w1 : world := { w with trace := w.trace ++ [action.connect w.ctrl.sockfd] }
    if r.connect_rc ≠ 0 then some (r.connect_rc, w1) else some (0, w1)

/-- The function `sender_socket_create`. -/
def sender_socket_create (r : attempt_results) (w : world) : Option (Int × world) :=
  match sender_socket_open r w with
  | none => none
  | some (rc, w1) =>
    if rc ≠ 0 then some (rc, w1)
    else
      match sender_socket_connect r w1 with
      | none => none
      | some (rc2, w2) =>
        if rc2 ≠ 0 then
          match sender_socket_close w2 with
          | none => none
          | some w3 => some (rc2, w3)
        else some (0, w2)

/-! ## Sender: waiting for the response (client.c:265-334) -/

/-- The loop of `sender_wait`, entered with the current value of `rc`. -/
def sender_wait_loop (c : sender_ctrl_t) (rc : Int) : List (Int × Bool) → Int × sender_ctrl_t
  | [] => if c.resp_ready then (rc, c) else (ETIMEDOUT, c)
  | (r, notified) :: rest =>
    if c.resp_ready then (rc, c)
    else
      let c1 : sender_ctrl_t := if notified then { c with resp_ready := true } else c
      if r ≠ 0 then (r, c1) else sender_wait_loop c1 r rest

/-- The function `sender_wait`: `rc` starts as `0`. -/
def sender_wait (c : sender_ctrl_t) (notified_early : Bool) (wakeups : List (Int × Bool)) :
    Int × sender_ctrl_t :=
  let c0 : sender_ctrl_t := if notified_early then { c with resp_ready := true } else c
  sender_wait_loop c0 0 wakeups

/-- The function `wait_for_resp`. -/
def wait_for_resp (r : attempt_results) (w : world) : Option (Int × world) :=
  if w.ctrl.freed then none
  else
    let w1 : world :=
      { w with ctrl := { w.ctrl with resp_ready := false },
               trace := w.trace ++ [action.reset_resp_ready] }
    let w2 : world := { w1 with trace := w1.trace ++ [action.epoll_add w1.ctrl.sockfd] }
    if r.epoll_add_rc ≠ 0 then some (-1, w2)
    else
      let res := sender_wait w2.ctrl r.notified_early r.wakeups
      let w3 : world :=
        { w2 with ctrl := res.2,
                  trace := w2.trace ++ [action.wait, action.epoll_del w2.ctrl.sockfd] }
      if res.1 ≠ 0 then some (-1, w3)
      else
        let w4 : world := { w3 with trace := w3.trace ++ [action.read w3.ctrl.sockfd] }
        if r.read_rc > 0 then some (r.read_rc, w4)
        else if r.read_rc = 0 then some (-1, w4)
        else some (-1, w4)

/-! ## Sender: one message (client.c:336-373) -/

/-- The function `send_http_msg_once`. -/
def send_http_msg_once (r : attempt_results) (msg : String) (w : world) :
    Option (Int × world) :=
  let g := gcounter_signal_start w.gcounter
  let w1 : world :=
    { w with gcounter := g.1,
             trace := w.trace ++ [action.signal_start] ++ List.replicate g.2 action.broadcast }
  if w1.ctrl.freed then none
  else
    let w2 : world :=
      { w1 with trace := w1.trace ++ [action.write w1.ctrl.sockfd msg.utf8ByteSize] }
    if r.write_rc = -1 then some (-1, w2)
    else
      match wait_for_resp r w2 with
      | none => none
      | some (rc, w3) => if rc = -1 then some (-1, w3) else some (0, w3)

/-- The `for` loop of `send_http_msg` with `n` passes left, the next one being pass `i`;
after the last pass `gcounter_inc_failure` is called. -/
def send_http_msg_loop (env : Nat → attempt_results) (msg : String) :
    Nat → Nat → world → Option world
  | 0, _, w =>
    some { w with gcounter := gcounter_inc_failure w.gcounter,
                  trace := w.trace ++ [action.inc_failure] }
  | n + 1, i, w =>
    match send_http_msg_once (env i) msg w with
    | none => none
    | some (rc, w1) =>
      if rc = 0 then
        some { w1 with gcounter := gcounter_inc_success w1.gcounter,
                       trace := w1.trace ++ [action.inc_success] }
      else
        match sender_socket_close w1 with
        | none => none
        | some w2 =>
          match sender_socket_create (env i) w2 with
          | none => none
          | some (_, w3) => send_http_msg_loop env msg n (i + 1) w3

/-- The function `send_http_msg`. -/
def send_http_msg (env : Nat → attempt_results) (msg : String) (w : world) : Option world :=
  send_http_msg_loop env msg SEND_MSG_MAX_TRY 0 w

/-- The loop of `sender_thread` (client.c:444-450) over the items it takes from the queue,
item `k` being sent under the results `envs k`; with no item left the thread blocks in
`task_queue_get`. -/
def sender_thread_loop (envs : Nat → Nat → attempt_results) :
    Nat → List String → world → Option world
  | _, [], w => some w
  | k, msg :: rest, w =>
    match send_http_msg (envs k) msg w with
    | none => none
    | some w1 => sender_thread_loop envs (k + 1) rest w1

/-! ## Producer (client.c:473-538) -/

/-- The run configuration `struct sender_env_s`; `msg_cnt` and `sender_cnt` are `uint32_t`. -/
structure sender_env_t where
  epfd : Int
  ip : String
  port : Int
  msg_cnt : Nat
  sender_cnt : Nat
deriving DecidableEq

/-- Modelled from the spec: the work queue of `task_queue.h`, whose code is not part of
`client.c`. Section 4.1 asks for a FIFO in which no item is dropped before `get` returns
it: a list, oldest item first. -/
abbrev task_queue_t := List String

/-- Modelled from the spec: `task_queue_put` (section 4.1) appends the item. -/
def task_queue_put (q : task_queue_t) (item : String) : task_queue_t :=
  q ++ [item]

/-- Modelled from the spec: `task_queue_get` (section 4.1) returns the oldest item; on an
empty queue the caller blocks (`none`). -/
def task_queue_get : task_queue_t → Option (String × task_queue_t)
  | [] => none
  | item :: rest => some (item, rest)

/-- The value an `int` holds after a conversion from `v`: two's complement on 32 bits. -/
def int32_wrap (v : Int) : Int :=
  let u := v % 4294967296
  if u ≥ 2147483648 then u - 4294967296 else u

/-- What the conversion `%d` prints for an argument whose value is `v`: the `int` read
from it, in decimal. -/
def fmt_d (v : Int) : String :=
  toString (int32_wrap v)

/-- The text `msg_body_template` expands to. -/
def msg_body (t : Int) (i : Nat) : String :=
  "\x7b\"txn_id\": \"txn_" ++ fmt_d t ++ "_" ++ fmt_d i ++ "\"\x7d"

/-- The text `msg_header_template` expands to. -/
def msg_header (len : Nat) (ip : String) (port : Int) : String :=
  "POST /graph/ HTTP/1.1\r\n" ++
  "Content-length: " ++ fmt_d len ++ "\r\n" ++
  "Host: " ++ ip ++ ":" ++ fmt_d port ++ "\r\n" ++
  "Content-type: application/json\r\n" ++
  "\r\n"

/-- The function `generate_msg` at time `t`; `alloc` says which of the two `asprintf`
calls and the `calloc` succeed. -/
def generate_msg (ip : String) (port : Int) (t : Int) (i : Nat) (alloc : Bool × Bool × Bool) :
    Option String :=
  if !alloc.1 then none
  else
    let body := msg_body t i
    if !alloc.2.1 then none
    else
      let header := msg_header body.utf8ByteSize ip port
      if !alloc.2.2 then none
      else some (header ++ body)

/-- The `for` loop of `producer_thread` with `n` passes left, the next index being `i`. -/
def producer_thread_loop (sender_env : sender_env_t) (clock : Nat → Int)
    (alloc : Nat → Bool × Bool × Bool) : Nat → Nat → task_queue_t → task_queue_t
  | 0, _, q => q
  | n + 1, i, q =>
    match generate_msg sender_env.ip sender_env.port (clock i) i (alloc i) with
    | none => producer_thread_loop sender_env clock alloc n (i + 1) q
    | some msg => producer_thread_loop sender_env clock alloc n (i + 1) (task_queue_put q msg)

/-- The function `producer_thread`: the queue after it has run. -/
def producer_thread (sender_env : sender_env_t) (clock : Nat → Int)
    (alloc : Nat → Bool × Bool × Bool) (q : task_queue_t) : task_queue_t :=
  producer_thread_loop sender_env clock alloc sender_env.msg_cnt 0 q

/-- The function `is_task_done`. -/
def is_task_done (sender_env : sender_env_t) (g : global_counter_t) : Bool :=
  let total := gcounter_get_total g
  if total = sender_env.msg_cnt then true else false

/-! ## Argument parsing and start of `main` (client.c:936-993, 1083-1104) -/

/-- The loop of `is_digit_string` over the characters before the terminating NUL. -/
def is_digit_chars : List Char → Bool
  | [] => true
  | c :: rest => if c < '0' ∨ c > '9' then false else is_digit_chars rest

/-- The function `is_digit_string`. -/
def is_digit_string (s : String) : Bool :=
  is_digit_chars s.data

/-- The characters `isspace` accepts in the C locale. -/
def is_space (c : Char) : Bool :=
  c = ' ' ∨ c = '\t' ∨ c = '\n' ∨ c = '\x0b' ∨ c = '\x0c' ∨ c = '\r'

/-- The value of a decimal digit. -/
def digit_value (c : Char) : Nat :=
  c.toNat - 48

/-- The digits `strtol` consumes, accumulated most significant first. -/
def digits_fold (cs : List Char) : Nat :=
  cs.foldl (fun acc c => 10 * acc + digit_value c) 0

/-- The optional sign `strtol` reads: whether it is a minus, and the characters after it. -/
def atoi_sign : List Char → Bool × List Char
  | '-' :: rest => (true, rest)
  | '+' :: rest => (false, rest)
  | rest => (false, rest)

/-- The library function `atoi` as glibc defines it, `(int) strtol(s, NULL, 10)`: white
space is skipped, a sign is read, the longest run of digits is converted, the result is
clamped to the range of `long` and then converted to `int`. -/
def atoi (s : String) : Int :=
  let cs := s.data.dropWhile is_space
  let signed : Bool × List Char := atoi_sign cs
  let v : Int := digits_fold (signed.2.takeWhile fun c => decide ('0' ≤ c ∧ c ≤ '9'))
  let l : Int :=
    if signed.1 then max (-v) (-9223372036854775808) else min v 9223372036854775807
  int32_wrap l

/-- The conversion of an `int` to `uint32_t`. -/
def to_uint32 (v : Int) : Nat :=
  (v % 4294967296).toNat

/-- The function `parse_args`; `argc` is the length of `argv`. With `argc = 0` the
function reads `argv[1]`, past the end of the vector, and has no defined result. -/
def parse_args (argv : List String) (sender_env : sender_env_t) : Option (Int × sender_env_t) :=
  let e0 : sender_env_t :=
    { sender_env with msg_cnt := SEND_MSG_CNT, sender_cnt := SENDER_THREAD_CNT }
  match argv with
  | [] => none
  | [_] => some (0, e0)
  | _ :: a1 :: rest =>
    if a1 = "--help" then some (-1, e0)
    else if !is_digit_string a1 then some (-1, e0)
    else
      let e1 : sender_env_t := { e0 with msg_cnt := to_uint32 (atoi a1) }
      match rest with
      | [] => some (0, e1)
      | [_] => some (-1, e1)
      | a2 :: a3 :: _ =>
        if a2 ≠ "-j" then some (-1, e1)
        else if !is_digit_string a3 then some (-1, e1)
        else some (0, { e1 with sender_cnt := to_uint32 (atoi a3) })

/-- How the start of `main` ends: it returns `status` (after printing the usage line or
not), or it goes on to create the threads with the parsed configuration. -/
inductive startup_result where
  | exit (status : Int) (usage_printed : Bool)
  | run (sender_env : sender_env_t)
deriving DecidableEq

/-- The start of `main` up to the call of `create_sender_threads`, given the results of
`test_connection` and `prepare_env` and the configuration `prepare_env` left. -/
def main_startup (test_connection_rc prepare_env_rc : Int) (sender_env : sender_env_t)
    (argv : List String) : Option startup_result :=
  if test_connection_rc ≠ 0 then some (.exit (-1) false)
  else if prepare_env_rc ≠ 0 then some (.exit (-1) false)
  else
    match parse_args argv sender_env with
    | none => none
    | some (rc, e) => if rc ≠ 0 then some (.exit (-1) true) else some (.run e)

/-- The exit status the parent process sees for a return value of `main`: its low 8 bits. -/
def exit_status (ret : Int) : Int :=
  ret % 256

/-! ## Reading the decimal strings of the argument forms -/

/-- A non-empty string of the characters `0` to `9`. -/
def is_decimal (s : String) : Prop :=
  s.data ≠ [] ∧ ∀ c ∈ s.data, '0' ≤ c ∧ c ≤ '9'

instance : DecidablePred is_decimal := fun s =>
  inferInstanceAs (Decidable (s.data ≠ [] ∧ ∀ c ∈ s.data, '0' ≤ c ∧ c ≤ '9'))

/-- The number a string of decimal digits denotes: the sum of `digit * 10 ^ position`,
positions counted from the right. -/
def decimal_value (s : String) : Nat :=
  Nat.ofDigits 10 (s.data.reverse.map digit_value)

/-- The sender sees `resp_ready` true during the wait: `notify_sender` ran before the
first test of the flag, or some wake-up of `pthread_cond_timedwait` returns `0` after
`notify_sender` ran, every wake-up before it having returned `0` with the flag still
down (no timeout and no wait error before it). -/
def ready_observed (r : attempt_results) : Prop :=
  r.notified_early = true
    ∨ ∃ pre post, r.wakeups = pre ++ (0, true) :: post ∧ ∀ x ∈ pre, x = (0, false)

/-! ## Concrete inputs used by the closed statements -/

/-- A counter whose `success` and `total` hold `UINT32_MAX`: the state after
`4294967295` calls of `gcounter_inc_success` on a fresh counter. -/
def counter_at_max : global_counter_t :=
  { started := false, total := 4294967295, success := 4294967295, failure := 0 }

/-- A control block with an open socket. -/
def ctrl0 : sender_ctrl_t :=
  { epfd := 3, sockfd := 4, resp_ready := false, freed := false }

/-- A sender thread about to send its first message: fresh counter, empty trace. -/
def world0 : world :=
  { gcounter := (gcounter_init 0).2, ctrl := ctrl0, trace := [] }

/-- The server answers: the write is complete, the event loop notifies the sender, the
read returns data (and a reconnect, were there one, would succeed). -/
def results_ok : attempt_results :=
  { write_rc := 3, epoll_add_rc := 0, notified_early := false, wakeups := [(0, true)],
    read_rc := 17, socket_rc := 5, setsockopt_rc := 0, connect_rc := 0 }

/-- The connection is gone and the server refuses the new one: `write` fails and, in the
reconnect, `connect` fails. -/
def results_refused : attempt_results :=
  { write_rc := -1, epoll_add_rc := 0, notified_early := false, wakeups := [],
    read_rc := 0, socket_rc := 5, setsockopt_rc := 0, connect_rc := -1 }

/-- The connection is gone and the process is out of descriptors: `write` fails and, in
the reconnect, `socket` fails (`EMFILE`). -/
def results_socket_failure : attempt_results :=
  { write_rc := -1, epoll_add_rc := 0, notified_early := false, wakeups := [],
    read_rc := 0, socket_rc := -1, setsockopt_rc := 0, connect_rc := 0 }

/-- No response before the deadline, and `socket` fails in the reconnect. -/
def results_timeout_socket_failure : attempt_results :=
  { write_rc := 3, epoll_add_rc := 0, notified_early := false, wakeups := [],
    read_rc := 0, socket_rc := -1, setsockopt_rc := 0, connect_rc := 0 }

/-- The configuration `prepare_env` leaves for a server on port `8080`. -/
def env0 : sender_env_t :=
  { epfd := 3, ip := "127.0.0.1", port := 8080, msg_cnt := 0, sender_cnt := 0 }

/-- A run of two messages. -/
def env_two : sender_env_t :=
  { epfd := 3, ip := "127.0.0.1", port := 8080, msg_cnt := 2, sender_cnt := 1 }

/-- In the list of calls `t`, a call `b` comes after the first call `a`. -/
def precedes (a b : action) (t : List action) : Bool :=
  (List.drop 1 (t.dropWhile fun x => x != a)).contains b

/-- The kernel takes only part of the payload: `write` returns `1` for a longer message;
then the event loop notifies the sender and the read returns data. -/
def results_short_write : attempt_results :=
  { write_rc := 1, epoll_add_rc := 0, notified_early := false, wakeups := [(0, true)],
    read_rc := 17, socket_rc := 5, setsockopt_rc := 0, connect_rc := 0 }

/-- The first second a 32-bit `int` no longer holds: 19 January 2038, 03:14:08 UTC. -/
def time_2038 : Int := 2147483648

/-! ## Theorems -/

theorem gcounter_run_append (p : global_counter_t) (xs ys : List gcounter_op) :
    gcounter_run p (xs ++ ys) = gcounter_run (gcounter_run p xs) ys := by
  simp [gcounter_run, List.foldl_append]

/-- One step keeps `total ≡ success + failure (mod 2^32)`. -/
theorem gcounter_step_sum (p : global_counter_t) (op : gcounter_op)
    (h : p.total = (p.success + p.failure) % UINT32_MOD) :
    (gcounter_step p op).total
      = ((gcounter_step p op).success + (gcounter_step p op).failure) % UINT32_MOD := by
  cases op <;>
    simp only [gcounter_step, gcounter_signal_start, gcounter_inc_success,
      gcounter_inc_failure, h, UINT32_MOD] <;> omega

/-- Below `2^32` operations nothing wraps: the fields are bounded by the number of steps. -/
theorem gcounter_step_exact (p : global_counter_t) (op : gcounter_op) (n : Nat)
    (hn : n + 1 < UINT32_MOD)
    (h : p.total = p.success + p.failure ∧ p.total ≤ n) :
    (gcounter_step p op).total = (gcounter_step p op).success + (gcounter_step p op).failure
      ∧ (gcounter_step p op).total ≤ n + 1 ∧ p.total ≤ (gcounter_step p op).total := by
  obtain ⟨h1, h2⟩ := h
  cases op <;>
    simp only [gcounter_step, gcounter_signal_start, gcounter_inc_success,
      gcounter_inc_failure, UINT32_MOD] at * <;> omega

theorem gcounter_run_sum (ops : List gcounter_op) (p : global_counter_t)
    (h : p.total = (p.success + p.failure) % UINT32_MOD) :
    (gcounter_run p ops).total
      = ((gcounter_run p ops).success + (gcounter_run p ops).failure) % UINT32_MOD := by
  induction ops generalizing p with
  | nil => simpa [gcounter_run] using h
  | cons op rest ih =>
    have := ih (gcounter_step p op) (gcounter_step_sum p op h)
    simpa [gcounter_run] using this

theorem gcounter_run_exact (ops : List gcounter_op) (p : global_counter_t) (n : Nat)
    (hn : n + ops.length < UINT32_MOD)
    (h : p.total = p.success + p.failure ∧ p.total ≤ n) :
    (gcounter_run p ops).total = (gcounter_run p ops).success + (gcounter_run p ops).failure
      ∧ (gcounter_run p ops).total ≤ n + ops.length := by
  induction ops generalizing p n with
  | nil => simpa [gcounter_run] using h
  | cons op rest ih =>
    simp only [List.length_cons] at hn
    have hs := gcounter_step_exact p op n (by omega) h
    have := ih (gcounter_step p op) (n + 1) (by omega) ⟨hs.1, hs.2.1⟩
    simp only [gcounter_run, List.foldl_cons, List.length_cons] at this ⊢
    constructor
    · exact this.1
    · omega

/-! ### The send path: what one call does when it returns, and when it returns -/

theorem sender_wait_loop_fields (l : List (Int × Bool)) (c : sender_ctrl_t) (rc : Int) :
    (sender_wait_loop c rc l).2.freed = c.freed ∧ (sender_wait_loop c rc l).2.sockfd = c.sockfd
      ∧ (sender_wait_loop c rc l).2.epfd = c.epfd := by
  induction l generalizing c rc with
  | nil => unfold sender_wait_loop; split_ifs <;> simp
  | cons x rest ih =>
    obtain ⟨r, n⟩ := x
    unfold sender_wait_loop
    split_ifs <;> simp_all

theorem sender_wait_fields (c : sender_ctrl_t) (b : Bool) (l : List (Int × Bool)) :
    (sender_wait c b l).2.freed = c.freed ∧ (sender_wait c b l).2.sockfd = c.sockfd
      ∧ (sender_wait c b l).2.epfd = c.epfd := by
  unfold sender_wait
  have := sender_wait_loop_fields l (if b then { c with resp_ready := true } else c) 0
  cases b <;> simpa using this

theorem wait_for_resp_some (r : attempt_results) (w : world) (rc : Int) (w1 : world)
    (h : wait_for_resp r w = some (rc, w1)) :
    (0 < rc ∨ rc = -1) ∧ w1.gcounter = w.gcounter ∧ w1.ctrl.freed = false
      ∧ w1.ctrl.sockfd = w.ctrl.sockfd
      ∧ attempts w1.trace = attempts w.trace
      ∧ counter_updates w1.trace = counter_updates w.trace
      ∧ reconnect_calls w1.trace = reconnect_calls w.trace := by
  have hf := sender_wait_fields { w.ctrl with resp_ready := false } r.notified_early r.wakeups
  simp only [wait_for_resp] at h
  split_ifs at h <;> simp only [Option.some.injEq, Prod.mk.injEq] at h <;>
    obtain ⟨h1, h2⟩ := h <;> subst h1 <;> subst h2 <;>
    simp_all [attempts, counter_updates, reconnect_calls, List.count_append, List.filter_append]

theorem wait_for_resp_defined (r : attempt_results) (w : world) (hf : w.ctrl.freed = false) :
    ∃ rc w1, wait_for_resp r w = some (rc, w1) := by
  simp only [wait_for_resp, hf, Bool.false_eq_true, ↓reduceIte]
  split_ifs <;> simp

theorem send_http_msg_once_some (r : attempt_results) (msg : String) (w : world) (rc : Int)
    (w1 : world) (h : send_http_msg_once r msg w = some (rc, w1)) :
    (rc = 0 ∨ rc = -1) ∧ w1.gcounter = (gcounter_signal_start w.gcounter).1
      ∧ w.ctrl.freed = false ∧ w1.ctrl.freed = false
      ∧ attempts w1.trace = attempts w.trace + 1
      ∧ counter_updates w1.trace = counter_updates w.trace
      ∧ reconnect_calls w1.trace = reconnect_calls w.trace := by
  simp only [send_http_msg_once] at h
  split_ifs at h with hfr hw
  · simp only [Option.some.injEq, Prod.mk.injEq] at h
    obtain ⟨h1, h2⟩ := h
    subst h1; subst h2
    cases hs : w.gcounter.started <;>
      simp_all [attempts, counter_updates, reconnect_calls, List.count_append,
        List.filter_append, gcounter_signal_start]
  · split at h
    · exact absurd h (by simp)
    · rename_i rc3 w3 hw3
      have hs := wait_for_resp_some r _ rc3 w3 hw3
      have hrc : (rc = 0 ∨ rc = -1) ∧ w1 = w3 := by
        split_ifs at h <;> simp only [Option.some.injEq, Prod.mk.injEq] at h <;>
          obtain ⟨h1, h2⟩ := h <;> subst h1 <;> subst h2 <;> simp
      obtain ⟨hrc1, hrc2⟩ := hrc
      subst hrc2
      cases hs2 : w.gcounter.started <;>
        simp_all [attempts, counter_updates, reconnect_calls, List.count_append,
          List.filter_append, gcounter_signal_start]

theorem send_http_msg_once_defined (r : attempt_results) (msg : String) (w : world)
    (hf : w.ctrl.freed = false) : ∃ rc w1, send_http_msg_once r msg w = some (rc, w1) := by
  simp only [send_http_msg_once, hf, Bool.false_eq_true, ↓reduceIte]
  split_ifs
  · simp
  · obtain ⟨rc, w1, h⟩ := wait_for_resp_defined r
      { w with gcounter := (gcounter_signal_start w.gcounter).1,
               trace := w.trace ++ [action.signal_start]
                 ++ List.replicate (gcounter_signal_start w.gcounter).2 action.broadcast
                 ++ [action.write w.ctrl.sockfd msg.utf8ByteSize] } hf
    rw [h]
    dsimp only
    split_ifs <;> simp

theorem sender_socket_close_some (w w1 : world) (h : sender_socket_close w = some w1) :
    w1.gcounter = w.gcounter ∧ w.ctrl.freed = false ∧ w1.ctrl = w.ctrl
      ∧ attempts w1.trace = attempts w.trace
      ∧ counter_updates w1.trace = counter_updates w.trace := by
  simp only [sender_socket_close] at h
  split_ifs at h
  simp only [Option.some.injEq] at h
  subst h
  simp_all [attempts, counter_updates, List.count_append]

theorem sender_socket_open_some (r : attempt_results) (w : world) (rc : Int) (w1 : world)
    (h : sender_socket_open r w = some (rc, w1)) :
    w1.gcounter = w.gcounter ∧ w.ctrl.freed = false
      ∧ (w1.ctrl.freed = true ↔ r.socket_rc < 0)
      ∧ (rc = 0 ↔ 0 ≤ r.socket_rc ∧ r.setsockopt_rc = 0)
      ∧ attempts w1.trace = attempts w.trace
      ∧ counter_updates w1.trace = counter_updates w.trace := by
  simp only [sender_socket_open] at h
  split_ifs at h <;> simp only [Option.some.injEq, Prod.mk.injEq] at h <;>
    obtain ⟨h1, h2⟩ := h <;> subst h1 <;> subst h2 <;>
    simp_all [attempts, counter_updates, List.count_append]

theorem sender_socket_connect_some (r : attempt_results) (w : world) (rc : Int) (w1 : world)
    (h : sender_socket_connect r w = some (rc, w1)) :
    w1.gcounter = w.gcounter ∧ w.ctrl.freed = false ∧ w1.ctrl = w.ctrl
      ∧ (rc = 0 ↔ r.connect_rc = 0)
      ∧ attempts w1.trace = attempts w.trace
      ∧ counter_updates w1.trace = counter_updates w.trace := by
  simp only [sender_socket_connect] at h
  split_ifs at h <;> simp only [Option.some.injEq, Prod.mk.injEq] at h <;>
    obtain ⟨h1, h2⟩ := h <;> subst h1 <;> subst h2 <;>
    simp_all [attempts, counter_updates, List.count_append]

theorem sender_socket_create_some (r : attempt_results) (w : world) (rc : Int) (w1 : world)
    (h : sender_socket_create r w = some (rc, w1)) :
    w1.gcounter = w.gcounter ∧ w.ctrl.freed = false
      ∧ (w1.ctrl.freed = true ↔ r.socket_rc < 0)
      ∧ (rc = 0 ↔ 0 ≤ r.socket_rc ∧ r.setsockopt_rc = 0 ∧ r.connect_rc = 0)
      ∧ attempts w1.trace = attempts w.trace
      ∧ counter_updates w1.trace = counter_updates w.trace := by
  unfold sender_socket_create at h
  split at h
  · exact absurd h (by simp)
  · rename_i rc1 wa ha
    have ho := sender_socket_open_some r w rc1 wa ha
    split_ifs at h with hrc1
    · simp only [Option.some.injEq, Prod.mk.injEq] at h
      obtain ⟨h1, h2⟩ := h
      subst h1; subst h2
      refine ⟨ho.1, ho.2.1, ho.2.2.1, ?_, ho.2.2.2.2.1, ho.2.2.2.2.2⟩
      have := ho.2.2.2.1
      constructor
      · intro h0; exact absurd h0 hrc1
      · intro h0; exact this.2 ⟨h0.1, h0.2.1⟩
    · have hrc0 : rc1 = 0 := by simpa using hrc1
      split at h
      · exact absurd h (by simp)
      · rename_i rc2 wb hb
        have hc := sender_socket_connect_some r wa rc2 wb hb
        have hfb : (wb.ctrl.freed = true ↔ r.socket_rc < 0) := by rw [hc.2.2.1]; exact ho.2.2.1
        have hsock := ho.2.2.2.1.1 hrc0
        split_ifs at h with hrc2
        · split at h
          · exact absurd h (by simp)
          · rename_i wc hcl
            have hx := sender_socket_close_some wb wc hcl
            simp only [Option.some.injEq, Prod.mk.injEq] at h
            obtain ⟨h1, h2⟩ := h
            subst h1; subst h2
            refine ⟨by rw [hx.1, hc.1, ho.1], ho.2.1, by rw [hx.2.2.1]; exact hfb, ?_,
              by rw [hx.2.2.2.1, hc.2.2.2.2.1, ho.2.2.2.2.1],
              by rw [hx.2.2.2.2, hc.2.2.2.2.2, ho.2.2.2.2.2]⟩
            constructor
            · intro h0; exact absurd h0 hrc2
            · intro h0; exact hc.2.2.2.1.2 h0.2.2
        · simp only [Option.some.injEq, Prod.mk.injEq] at h
          obtain ⟨h1, h2⟩ := h
          subst h1; subst h2
          have hrc2z : rc2 = 0 := by simpa using hrc2
          refine ⟨by rw [hc.1, ho.1], ho.2.1, hfb, ?_,
            by rw [hc.2.2.2.2.1, ho.2.2.2.2.1], by rw [hc.2.2.2.2.2, ho.2.2.2.2.2]⟩
          constructor
          · intro _; exact ⟨hsock.1, hsock.2, hc.2.2.2.1.1 hrc2z⟩
          · intro _; rfl

theorem sender_socket_create_defined (r : attempt_results) (w : world)
    (hf : w.ctrl.freed = false) : ∃ rc w1, sender_socket_create r w = some (rc, w1) := by
  simp only [sender_socket_create, sender_socket_open, sender_socket_connect,
    sender_socket_close, hf, Bool.false_eq_true, ↓reduceIte]
  split_ifs <;> simp_all

theorem send_http_msg_loop_some (env : Nat → attempt_results) (msg : String) (n : Nat) :
    ∀ (i : Nat) (w w' : world), send_http_msg_loop env msg n i w = some w' →
      counter_updates w'.trace = counter_updates w.trace + 1
        ∧ w'.gcounter.total = (w.gcounter.total + 1) % UINT32_MOD
        ∧ ((w'.gcounter.success = (w.gcounter.success + 1) % UINT32_MOD
              ∧ w'.gcounter.failure = w.gcounter.failure)
            ∨ (w'.gcounter.failure = (w.gcounter.failure + 1) % UINT32_MOD
              ∧ w'.gcounter.success = w.gcounter.success))
        ∧ attempts w.trace ≤ attempts w'.trace
        ∧ attempts w'.trace ≤ attempts w.trace + n := by
  induction n with
  | zero =>
    intro i w w' h
    simp only [send_http_msg_loop, Option.some.injEq] at h
    subst h
    simp [counter_updates, attempts, List.count_append, gcounter_inc_failure]
    omega
  | succ n ih =>
    intro i w w' h
    unfold send_http_msg_loop at h
    split at h
    · exact absurd h (by simp)
    · rename_i rc w1 h1
      have ho := send_http_msg_once_some (env i) msg w rc w1 h1
      have hg : w1.gcounter.total = w.gcounter.total ∧ w1.gcounter.success = w.gcounter.success
          ∧ w1.gcounter.failure = w.gcounter.failure := by
        rw [ho.2.1]; simp [gcounter_signal_start]
      split_ifs at h with hrc
      · simp only [Option.some.injEq] at h
        subst h
        simp [counter_updates, attempts, List.count_append, gcounter_inc_success, hg]
        have h5 := ho.2.2.2.2.1
        have h6 := ho.2.2.2.2.2.1
        simp only [counter_updates, attempts] at h5 h6
        omega
      · split at h
        · exact absurd h (by simp)
        · rename_i w2 h2
          have hc := sender_socket_close_some w1 w2 h2
          split at h
          · exact absurd h (by simp)
          · rename_i rc3 w3 h3
            have hr := sender_socket_create_some (env i) w2 rc3 w3 h3
            have hl := ih (i + 1) w3 w' h
            have e1 : counter_updates w3.trace = counter_updates w.trace := by
              rw [hr.2.2.2.2.2, hc.2.2.2.2, ho.2.2.2.2.2.1]
            have e2 : attempts w3.trace = attempts w.trace + 1 := by
              rw [hr.2.2.2.2.1, hc.2.2.2.1, ho.2.2.2.2.1]
            have e3 : w3.gcounter.total = w.gcounter.total
                ∧ w3.gcounter.success = w.gcounter.success
                ∧ w3.gcounter.failure = w.gcounter.failure := by
              rw [hr.1, hc.1]; exact hg
            rw [e1, e2, e3.1, e3.2.1, e3.2.2] at hl
            refine ⟨hl.1, hl.2.1, hl.2.2.1, ?_, ?_⟩ <;> omega

theorem send_http_msg_loop_defined (env : Nat → attempt_results) (msg : String)
    (hs : ∀ j, 0 ≤ (env j).socket_rc) (n : Nat) :
    ∀ (i : Nat) (w : world), w.ctrl.freed = false →
      ∃ w', send_http_msg_loop env msg n i w = some w' ∧ w'.ctrl.freed = false := by
  induction n with
  | zero =>
    intro i w hf
    exact ⟨_, rfl, hf⟩
  | succ n ih =>
    intro i w hf
    obtain ⟨rc, w1, h1⟩ := send_http_msg_once_defined (env i) msg w hf
    have ho := send_http_msg_once_some (env i) msg w rc w1 h1
    unfold send_http_msg_loop
    rw [h1]
    dsimp only
    split_ifs with hrc
    · exact ⟨_, rfl, ho.2.2.2.1⟩
    · have hcl : sender_socket_close w1
          = some { w1 with trace := w1.trace ++ [action.close w1.ctrl.sockfd] } := by
        simp [sender_socket_close, ho.2.2.2.1]
      rw [hcl]
      dsimp only
      obtain ⟨rc3, w3, h3⟩ := sender_socket_create_defined (env i)
        { w1 with trace := w1.trace ++ [action.close w1.ctrl.sockfd] } ho.2.2.2.1
      have hr := sender_socket_create_some (env i) _ rc3 w3 h3
      rw [h3]
      dsimp only
      apply ih
      have hno : ¬ (env i).socket_rc < 0 := by have := hs i; omega
      cases hfr : w3.ctrl.freed
      · rfl
      · exact absurd (hr.2.2.1.1 hfr) hno

/-! ### The global counter -/

theorem gcounter_run_replicate_inc_success (n : Nat) :
    gcounter_run { started := false, total := 0, success := 0, failure := 0 }
        (List.replicate n gcounter_op.inc_success)
      = { started := false, total := n % UINT32_MOD, success := n % UINT32_MOD, failure := 0 } := by
  induction n with
  | zero => simp [gcounter_run, UINT32_MOD]
  | succ n ih =>
    rw [List.replicate_succ', gcounter_run_append, ih]
    simp [gcounter_run, gcounter_step, gcounter_inc_success, UINT32_MOD]

/-- C2: in every state reachable from `gcounter_init` by any sequence of counter
operations, the values `gcounter_get_snapshot` returns satisfy
`total == success + failure` as C evaluates it on the `uint32_t` fields (the sum taken
modulo `2^32`); with fewer than `2^32` operations nothing has wrapped and the sum is
the exact one. -/
theorem gcounter_snapshot_total_eq_sum (mutex_init_rc : Int) (ops : List gcounter_op)
    (dst : global_counter_t) :
    (gcounter_get_snapshot (gcounter_run (gcounter_init mutex_init_rc).2 ops) dst).total
        = ((gcounter_get_snapshot (gcounter_run (gcounter_init mutex_init_rc).2 ops) dst).success
            + (gcounter_get_snapshot (gcounter_run (gcounter_init mutex_init_rc).2 ops) dst).failure)
          % UINT32_MOD
      ∧ (ops.length < UINT32_MOD →
          (gcounter_get_snapshot (gcounter_run (gcounter_init mutex_init_rc).2 ops) dst).total
            = (gcounter_get_snapshot (gcounter_run (gcounter_init mutex_init_rc).2 ops) dst).success
              + (gcounter_get_snapshot (gcounter_run (gcounter_init mutex_init_rc).2 ops) dst).failure) := by
  have h0 : (gcounter_init mutex_init_rc).2
      = { started := false, total := 0, success := 0, failure := 0 } := by
    unfold gcounter_init; split_ifs <;> rfl
  rw [h0]
  simp only [gcounter_get_snapshot]
  constructor
  · exact gcounter_run_sum ops _ (by simp [UINT32_MOD])
  · intro hlen
    exact (gcounter_run_exact ops _ 0 (by omega) (by simp)).1

/-- C6, the claim as stated fails at the top of the `uint32_t` range: on the counter with
`success = total = 4294967295`, which `4294967295` calls of `gcounter_inc_success` reach
from a fresh counter, one more call leaves `success = 0` and `total = 0`, neither of
which is the old value plus one. -/
theorem gcounter_inc_success_wraps :
    gcounter_run (gcounter_init 0).2 (List.replicate 4294967295 gcounter_op.inc_success)
        = counter_at_max
      ∧ (gcounter_inc_success counter_at_max).success = 0
      ∧ (gcounter_inc_success counter_at_max).total = 0
      ∧ (gcounter_inc_success counter_at_max).success ≠ counter_at_max.success + 1
      ∧ (gcounter_inc_success counter_at_max).total ≠ counter_at_max.total + 1 := by
  refine ⟨?_, by decide, by decide, by decide, by decide⟩
  have h0 : (gcounter_init 0).2
      = { started := false, total := 0, success := 0, failure := 0 } := rfl
  rw [h0, gcounter_run_replicate_inc_success]
  simp [counter_at_max, UINT32_MOD]

/-- C6 (amended): for every counter state, `gcounter_inc_success` adds one to `success`
and to `total` modulo `2^32`, which is exactly one whenever the field is below
`4294967295`, and leaves `failure` and `started` unchanged; `gcounter_inc_failure` does
the same with `failure` in the place of `success`. -/
theorem gcounter_inc_frame (p : global_counter_t) :
    ((gcounter_inc_success p).success = (p.success + 1) % UINT32_MOD
        ∧ (gcounter_inc_success p).total = (p.total + 1) % UINT32_MOD
        ∧ (gcounter_inc_success p).failure = p.failure
        ∧ (gcounter_inc_success p).started = p.started
        ∧ (p.success + 1 < UINT32_MOD → (gcounter_inc_success p).success = p.success + 1)
        ∧ (p.total + 1 < UINT32_MOD → (gcounter_inc_success p).total = p.total + 1))
      ∧ ((gcounter_inc_failure p).failure = (p.failure + 1) % UINT32_MOD
        ∧ (gcounter_inc_failure p).total = (p.total + 1) % UINT32_MOD
        ∧ (gcounter_inc_failure p).success = p.success
        ∧ (gcounter_inc_failure p).started = p.started
        ∧ (p.failure + 1 < UINT32_MOD → (gcounter_inc_failure p).failure = p.failure + 1)
        ∧ (p.total + 1 < UINT32_MOD → (gcounter_inc_failure p).total = p.total + 1)) := by
  simp only [gcounter_inc_success, gcounter_inc_failure, true_and, and_true]
  refine ⟨⟨?_, ?_⟩, ⟨?_, ?_⟩⟩ <;> intro h <;> exact Nat.mod_eq_of_lt h

/-- C7, the claim as stated fails at the top of the `uint32_t` range: on the counter with
`total = 4294967295` a call of `gcounter_inc_success` or of `gcounter_inc_failure` leaves
`total = 0`, which is below the value before. -/
theorem gcounter_total_decreases_at_max :
    counter_at_max.total = 4294967295
      ∧ (gcounter_step counter_at_max gcounter_op.inc_success).total = 0
      ∧ (gcounter_step counter_at_max gcounter_op.inc_failure).total = 0
      ∧ ¬ (counter_at_max.total
            ≤ (gcounter_step counter_at_max gcounter_op.inc_success).total) := by
  decide

/-- C7 (amended): for every counter state whose `total` is below `4294967295` and every
operation on it, `total` after the operation is at least `total` before it, and the three
operations other than the increments leave `total` as it is in every state; so along any
sequence of fewer than `2^32` operations from `gcounter_init` (a run makes at most
`msg_cnt ≤ 4294967295` increments) `total` never decreases. -/
theorem gcounter_total_monotone (p : global_counter_t) (op : gcounter_op)
    (h : p.total + 1 < UINT32_MOD) :
    p.total ≤ (gcounter_step p op).total
      ∧ (∀ q : global_counter_t,
          (gcounter_step q gcounter_op.signal_start).total = q.total
            ∧ (gcounter_step q gcounter_op.get_snapshot).total = q.total
            ∧ (gcounter_step q gcounter_op.get_total).total = q.total)
      ∧ (∀ (mutex_init_rc : Int) (ops : List gcounter_op), ops.length + 1 < UINT32_MOD →
          (gcounter_run (gcounter_init mutex_init_rc).2 ops).total
            ≤ (gcounter_run (gcounter_init mutex_init_rc).2 (ops ++ [op])).total) := by
  refine ⟨?_, ?_, ?_⟩
  · cases op <;>
      simp only [gcounter_step, gcounter_signal_start, gcounter_inc_success,
        gcounter_inc_failure, UINT32_MOD] at * <;> omega
  · intro q
    simp [gcounter_step, gcounter_signal_start]
  · intro rc ops hlen
    have h0 : (gcounter_init rc).2
        = { started := false, total := 0, success := 0, failure := 0 } := by
      unfold gcounter_init; split_ifs <;> rfl
    rw [h0, gcounter_run_append]
    have hb := gcounter_run_exact ops
      { started := false, total := 0, success := 0, failure := 0 } 0 (by omega) (by simp)
    have hs := gcounter_step_exact _ op ops.length hlen ⟨hb.1, by simpa using hb.2⟩
    simpa [gcounter_run] using hs.2.2

/-- C7 (amended), at a concrete input: a fresh counter and `gcounter_inc_success`. -/
theorem gcounter_total_monotone_witness :
    (gcounter_init 0).2.total + 1 < UINT32_MOD
      ∧ (gcounter_init 0).2.total
          ≤ (gcounter_step (gcounter_init 0).2 gcounter_op.inc_success).total :=
  ⟨by decide, (gcounter_total_monotone (gcounter_init 0).2 gcounter_op.inc_success
    (by decide)).1⟩

/-- C8: `gcounter_signal_start` is one-shot and idempotent. On a state with
`started == false` it sets `started` and issues one broadcast; on a state with
`started == true` it issues no broadcast and leaves the state as it is; it never changes
`total`, `success` or `failure`; a second call changes nothing and broadcasts nothing. -/
theorem gcounter_signal_start_one_shot (p : global_counter_t) :
    (p.started = false →
        (gcounter_signal_start p).1.started = true ∧ (gcounter_signal_start p).2 = 1)
      ∧ (p.started = true →
        (gcounter_signal_start p).1 = p ∧ (gcounter_signal_start p).2 = 0)
      ∧ (gcounter_signal_start p).1.total = p.total
      ∧ (gcounter_signal_start p).1.success = p.success
      ∧ (gcounter_signal_start p).1.failure = p.failure
      ∧ (gcounter_signal_start (gcounter_signal_start p).1).1 = (gcounter_signal_start p).1
      ∧ (gcounter_signal_start (gcounter_signal_start p).1).2 = 0 := by
  refine ⟨?_, ?_, rfl, rfl, rfl, rfl, rfl⟩
  · intro h
    simp [gcounter_signal_start, h]
  · intro h
    obtain ⟨s, t, a, b⟩ := p
    simp only at h
    subst h
    simp [gcounter_signal_start]

/-! ### One message -/

/-- Whenever `send_http_msg` returns, it has made exactly one counter update, between one
and `SEND_MSG_MAX_TRY` attempts, and `total` has advanced by one (modulo `2^32`). -/
theorem send_http_msg_some (env : Nat → attempt_results) (msg : String) (w w' : world)
    (h : send_http_msg env msg w = some w') :
    counter_updates w'.trace = counter_updates w.trace + 1
      ∧ w'.gcounter.total = (w.gcounter.total + 1) % UINT32_MOD
      ∧ ((w'.gcounter.success = (w.gcounter.success + 1) % UINT32_MOD
            ∧ w'.gcounter.failure = w.gcounter.failure)
          ∨ (w'.gcounter.failure = (w.gcounter.failure + 1) % UINT32_MOD
            ∧ w'.gcounter.success = w.gcounter.success))
      ∧ attempts w'.trace ≤ attempts w.trace + SEND_MSG_MAX_TRY := by
  have := send_http_msg_loop_some env msg SEND_MSG_MAX_TRY 0 w w' h
  exact ⟨this.1, this.2.1, this.2.2.1, this.2.2.2.2⟩

/-- When no `socket` call of a reconnect fails, `send_http_msg` returns and the control
block is still allocated. -/
theorem send_http_msg_defined (env : Nat → attempt_results) (msg : String) (w : world)
    (hs : ∀ j, 0 ≤ (env j).socket_rc) (hf : w.ctrl.freed = false) :
    ∃ w', send_http_msg env msg w = some w' ∧ w'.ctrl.freed = false :=
  send_http_msg_loop_defined env msg hs SEND_MSG_MAX_TRY 0 w hf

/-- C5: if the first attempt of `send_http_msg_once` succeeds, `send_http_msg` returns
after that one attempt, with no `close`, `socket` or `connect` call, after one call of
`gcounter_inc_success`: `success` and `total` are one more than before (the counter not
being at the top of the `uint32_t` range) and `failure` is unchanged. -/
theorem send_http_msg_first_attempt_success (env : Nat → attempt_results) (msg : String)
    (w w1 : world) (h : send_http_msg_once (env 0) msg w = some (0, w1)) :
    ∃ w', send_http_msg env msg w = some w'
      ∧ attempts w'.trace = attempts w.trace + 1
      ∧ reconnect_calls w'.trace = reconnect_calls w.trace
      ∧ counter_updates w'.trace = counter_updates w.trace + 1
      ∧ w'.trace = w1.trace ++ [action.inc_success]
      ∧ w'.gcounter = gcounter_inc_success (gcounter_signal_start w.gcounter).1
      ∧ w'.gcounter.failure = w.gcounter.failure
      ∧ (w.gcounter.success + 1 < UINT32_MOD → w'.gcounter.success = w.gcounter.success + 1)
      ∧ (w.gcounter.total + 1 < UINT32_MOD → w'.gcounter.total = w.gcounter.total + 1) := by
  have ho := send_http_msg_once_some (env 0) msg w 0 w1 h
  refine ⟨{ w1 with gcounter := gcounter_inc_success w1.gcounter,
                    trace := w1.trace ++ [action.inc_success] }, ?_, ?_, ?_, ?_, rfl, ?_, ?_, ?_, ?_⟩
  · simp [send_http_msg, SEND_MSG_MAX_TRY, send_http_msg_loop, h]
  · have := ho.2.2.2.2.1
    simp only [attempts] at this ⊢
    simp [List.count_append, this]
  · have := ho.2.2.2.2.2.2
    simp only [reconnect_calls] at this ⊢
    simp [List.filter_append, this]
  · have := ho.2.2.2.2.2.1
    simp only [counter_updates] at this ⊢
    simp [List.count_append]
    omega
  · simp [ho.2.1]
  · simp [ho.2.1, gcounter_inc_success, gcounter_signal_start]
  · intro hlt
    simp [ho.2.1, gcounter_inc_success, gcounter_signal_start, Nat.mod_eq_of_lt hlt]
  · intro hlt
    simp [ho.2.1, gcounter_inc_success, gcounter_signal_start, Nat.mod_eq_of_lt hlt]

/-- C5 at a concrete input: the server answers the first attempt. -/
theorem send_http_msg_first_attempt_success_witness :
    ∃ w', send_http_msg (fun _ => results_ok) "abc" world0 = some w'
      ∧ attempts w'.trace = attempts world0.trace + 1
      ∧ reconnect_calls w'.trace = reconnect_calls world0.trace
      ∧ w'.gcounter = { started := true, total := 1, success := 1, failure := 0 } := by
  obtain ⟨w', h1, h2, h3, _, _, h6, _⟩ :=
    send_http_msg_first_attempt_success (fun _ => results_ok) "abc" world0
      { gcounter := { started := true, total := 0, success := 0, failure := 0 },
        ctrl := { ctrl0 with resp_ready := true },
        trace := [action.signal_start, action.broadcast, action.write 4 3,
          action.reset_resp_ready, action.epoll_add 4, action.wait, action.epoll_del 4,
          action.read 4] }
      (by decide)
  exact ⟨w', h1, h2, h3, by rw [h6]; decide⟩

theorem send_http_msg_loop_all_fail (env : Nat → attempt_results) (msg : String)
    (hfail : ∀ j w rc w1, send_http_msg_once (env j) msg w = some (rc, w1) → rc ≠ 0)
    (n : Nat) :
    ∀ (i : Nat) (w w' : world), send_http_msg_loop env msg n i w = some w' →
      attempts w'.trace = attempts w.trace + n
        ∧ w'.gcounter.failure = (w.gcounter.failure + 1) % UINT32_MOD
        ∧ w'.gcounter.success = w.gcounter.success
        ∧ w'.trace.getLast? = some action.inc_failure := by
  induction n with
  | zero =>
    intro i w w' h
    simp only [send_http_msg_loop, Option.some.injEq] at h
    subst h
    simp [attempts, List.count_append, gcounter_inc_failure]
  | succ n ih =>
    intro i w w' h
    unfold send_http_msg_loop at h
    split at h
    · exact absurd h (by simp)
    · rename_i rc w1 h1
      have ho := send_http_msg_once_some (env i) msg w rc w1 h1
      have hrc : rc ≠ 0 := hfail i w rc w1 h1
      rw [if_neg hrc] at h
      split at h
      · exact absurd h (by simp)
      · rename_i w2 h2
        have hc := sender_socket_close_some w1 w2 h2
        split at h
        · exact absurd h (by simp)
        · rename_i rc3 w3 h3
          have hr := sender_socket_create_some (env i) w2 rc3 w3 h3
          have hl := ih (i + 1) w3 w' h
          have e2 : attempts w3.trace = attempts w.trace + 1 := by
            rw [hr.2.2.2.2.1, hc.2.2.2.1, ho.2.2.2.2.1]
          have e3 : w3.gcounter.success = w.gcounter.success
              ∧ w3.gcounter.failure = w.gcounter.failure := by
            rw [hr.1, hc.1, ho.2.1]; simp [gcounter_signal_start]
          rw [e2, e3.1, e3.2] at hl
          refine ⟨by omega, hl.2.1, hl.2.2.1, hl.2.2.2⟩

theorem send_http_msg_loop_defined_between (env : Nat → attempt_results) (msg : String)
    (n : Nat) :
    ∀ (i : Nat) (w : world), w.ctrl.freed = false →
      (∀ j, i ≤ j → j + 1 < i + n → 0 ≤ (env j).socket_rc) →
      ∃ w', send_http_msg_loop env msg n i w = some w' := by
  induction n with
  | zero =>
    intro i w _ _
    exact ⟨_, rfl⟩
  | succ n ih =>
    intro i w hf hs
    obtain ⟨rc, w1, h1⟩ := send_http_msg_once_defined (env i) msg w hf
    have ho := send_http_msg_once_some (env i) msg w rc w1 h1
    unfold send_http_msg_loop
    rw [h1]
    dsimp only
    split_ifs with hrc
    · exact ⟨_, rfl⟩
    · have hcl : sender_socket_close w1
          = some { w1 with trace := w1.trace ++ [action.close w1.ctrl.sockfd] } := by
        simp [sender_socket_close, ho.2.2.2.1]
      rw [hcl]
      dsimp only
      obtain ⟨rc3, w3, h3⟩ := sender_socket_create_defined (env i)
        { w1 with trace := w1.trace ++ [action.close w1.ctrl.sockfd] } ho.2.2.2.1
      have hr := sender_socket_create_some (env i) _ rc3 w3 h3
      rw [h3]
      dsimp only
      cases n with
      | zero => exact ⟨_, rfl⟩
      | succ m =>
        apply ih
        · have hno : ¬ (env i).socket_rc < 0 := by
            have := hs i (le_refl i) (by omega); omega
          cases hfr : w3.ctrl.freed
          · rfl
          · exact absurd (hr.2.2.1.1 hfr) hno
        · intro j hj1 hj2
          exact hs j (by omega) (by omega)

/-- When every attempt fails and no `socket` call between two attempts fails,
`send_http_msg` returns after exactly `SEND_MSG_MAX_TRY` attempts, its last call being
`gcounter_inc_failure`: `failure` advances by one and `success` is unchanged, whatever
`setsockopt` and `connect` answer in the reconnects. -/
theorem send_http_msg_all_fail (env : Nat → attempt_results) (msg : String) (w : world)
    (hf : w.ctrl.freed = false)
    (hfail : ∀ j w rc w1, send_http_msg_once (env j) msg w = some (rc, w1) → rc ≠ 0)
    (hs : ∀ j, j + 1 < SEND_MSG_MAX_TRY → 0 ≤ (env j).socket_rc) :
    ∃ w', send_http_msg env msg w = some w'
      ∧ attempts w'.trace = attempts w.trace + SEND_MSG_MAX_TRY
      ∧ counter_updates w'.trace = counter_updates w.trace + 1
      ∧ w'.gcounter.failure = (w.gcounter.failure + 1) % UINT32_MOD
      ∧ w'.gcounter.total = (w.gcounter.total + 1) % UINT32_MOD
      ∧ w'.gcounter.success = w.gcounter.success := by
  obtain ⟨w', h⟩ := send_http_msg_loop_defined_between env msg SEND_MSG_MAX_TRY 0 w hf
    (fun j _ hj => hs j (by omega))
  have ha := send_http_msg_loop_all_fail env msg hfail SEND_MSG_MAX_TRY 0 w w' h
  have hb := send_http_msg_loop_some env msg SEND_MSG_MAX_TRY 0 w w' h
  exact ⟨w', h, ha.1, hb.1, ha.2.1, hb.2.1, ha.2.2.1⟩

/-- C1, where the code leaves the claim: the first attempt fails on `write`, and in the
reconnect `socket` fails, so `sender_socket_open` frees the control block
(client.c:207). At that point no counter update has been made, and the second pass of
the loop reads the freed block: `send_http_msg` has no defined result, where the claim
asks for exactly one counter update. -/
theorem send_http_msg_socket_failure_undefined :
    (∃ w1 w2 w3,
        send_http_msg_once results_socket_failure "abc" world0 = some (-1, w1)
          ∧ sender_socket_close w1 = some w2
          ∧ sender_socket_create results_socket_failure w2 = some (-1, w3)
          ∧ w3.ctrl.freed = true
          ∧ counter_updates w3.trace = 0
          ∧ send_http_msg_once results_socket_failure "abc" w3 = none)
      ∧ send_http_msg (fun _ => results_socket_failure) "abc" world0 = none := by
  refine ⟨⟨_, _, _, rfl, rfl, rfl, ?_, ?_, ?_⟩, ?_⟩ <;> decide

/-- C4, where the code leaves the claim: every attempt fails (the response never comes)
and the reconnect after the first attempt fails in `socket`. The control block is freed
after one attempt, and the second attempt reads it: `send_http_msg` has no defined
result, where the claim asks for three attempts and one `gcounter_inc_failure`. With
`connect` failing instead, the three attempts and the failure update are made. -/
theorem send_http_msg_reconnect_socket_failure :
    (∃ w1 w2 w3,
        send_http_msg_once results_timeout_socket_failure "abc" world0 = some (-1, w1)
          ∧ attempts w1.trace = 1
          ∧ sender_socket_close w1 = some w2
          ∧ sender_socket_create results_timeout_socket_failure w2 = some (-1, w3)
          ∧ w3.ctrl.freed = true
          ∧ send_http_msg_once results_timeout_socket_failure "abc" w3 = none)
      ∧ send_http_msg (fun _ => results_timeout_socket_failure) "abc" world0 = none
      ∧ (∃ w', send_http_msg (fun _ => results_refused) "abc" world0 = some w'
          ∧ attempts w'.trace = 3
          ∧ w'.gcounter = { started := true, total := 1, success := 0, failure := 1 }) := by
  refine ⟨⟨_, _, _, rfl, ?_, rfl, rfl, ?_, ?_⟩, ?_, ⟨_, rfl, ?_, ?_⟩⟩ <;> decide

/-! ### Producer and senders -/

theorem producer_thread_loop_eq (sender_env : sender_env_t) (clock : Nat → Int)
    (alloc : Nat → Bool × Bool × Bool) (n : Nat) :
    ∀ (i : Nat) (q : task_queue_t),
      producer_thread_loop sender_env clock alloc n i q
        = q ++ (List.range' i n).filterMap
            (fun k => generate_msg sender_env.ip sender_env.port (clock k) k (alloc k)) := by
  induction n with
  | zero => intro i q; simp [producer_thread_loop]
  | succ n ih =>
    intro i q
    unfold producer_thread_loop
    split
    · rename_i hg
      rw [ih, List.range'_succ, List.filterMap_cons, hg]
    · rename_i m hg
      rw [ih, List.range'_succ, List.filterMap_cons, hg]
      simp [task_queue_put]

theorem filterMap_of_ne_none (g : Nat → Option String) (l : List Nat)
    (h : ∀ k ∈ l, g k ≠ none) : l.filterMap g = l.map (fun k => (g k).getD "") := by
  induction l with
  | nil => rfl
  | cons a rest ih =>
    have ha := h a (List.mem_cons_self a rest)
    have hr := ih (fun k hk => h k (List.mem_cons_of_mem a hk))
    cases hg : g a with
    | none => exact absurd hg ha
    | some m => simp [List.filterMap_cons, hg, hr]

theorem sender_thread_loop_some (envs : Nat → Nat → attempt_results) (items : List String) :
    ∀ (k : Nat) (w w' : world), w.gcounter.total < UINT32_MOD →
      sender_thread_loop envs k items w = some w' →
      w'.gcounter.total = (w.gcounter.total + items.length) % UINT32_MOD
        ∧ counter_updates w'.trace = counter_updates w.trace + items.length := by
  induction items with
  | nil =>
    intro k w w' hw h
    simp only [sender_thread_loop, Option.some.injEq] at h
    subst h
    simp [Nat.mod_eq_of_lt hw]
  | cons msg rest ih =>
    intro k w w' hw h
    unfold sender_thread_loop at h
    split at h
    · exact absurd h (by simp)
    · rename_i w1 h1
      have hs := send_http_msg_some (envs k) msg w w1 h1
      have hw1 : w1.gcounter.total < UINT32_MOD := by
        rw [hs.2.1]; exact Nat.mod_lt _ (by decide)
      have hl := ih (k + 1) w1 w' hw1 h
      rw [hs.1, hs.2.1] at hl
      simp only [List.length_cons]
      refine ⟨?_, by omega⟩
      rw [hl.1]
      simp only [UINT32_MOD]
      omega

theorem sender_thread_loop_defined (envs : Nat → Nat → attempt_results)
    (hs : ∀ k j, 0 ≤ (envs k j).socket_rc) (items : List String) :
    ∀ (k : Nat) (w : world), w.ctrl.freed = false →
      ∃ w', sender_thread_loop envs k items w = some w' := by
  induction items with
  | nil => intro k w _; exact ⟨w, rfl⟩
  | cons msg rest ih =>
    intro k w hf
    obtain ⟨w1, h1, hf1⟩ := send_http_msg_defined (envs k) msg w (hs k) hf
    unfold sender_thread_loop
    rw [h1]
    exact ih (k + 1) w1 hf1

/-- C3: for every message count `M` (a `uint32_t`), when `generate_msg` never fails,
`producer_thread` enqueues exactly `M` items, item `i` being the message generated for
index `i`; and once `send_http_msg` has run on each of them in turn, starting from a
freshly initialised counter, `gcounter_get_total` returns `M` and `is_task_done` holds.
The runs do return when no `socket` call of a reconnect fails. -/
theorem producer_then_senders_total (sender_env : sender_env_t) (clock : Nat → Int)
    (alloc : Nat → Bool × Bool × Bool) (mutex_init_rc : Int) (c : sender_ctrl_t)
    (hM : sender_env.msg_cnt < UINT32_MOD)
    (hgen : ∀ i, i < sender_env.msg_cnt →
      generate_msg sender_env.ip sender_env.port (clock i) i (alloc i) ≠ none)
    (hc : c.freed = false) :
    (producer_thread sender_env clock alloc []).length = sender_env.msg_cnt
      ∧ (∀ i, i < sender_env.msg_cnt →
          (producer_thread sender_env clock alloc [])[i]?
            = generate_msg sender_env.ip sender_env.port (clock i) i (alloc i))
      ∧ (∀ (envs : Nat → Nat → attempt_results) (w' : world),
          sender_thread_loop envs 0 (producer_thread sender_env clock alloc [])
              { gcounter := (gcounter_init mutex_init_rc).2, ctrl := c, trace := [] } = some w' →
            gcounter_get_total w'.gcounter = sender_env.msg_cnt
              ∧ is_task_done sender_env w'.gcounter = true
              ∧ counter_updates w'.trace = sender_env.msg_cnt)
      ∧ (∀ (envs : Nat → Nat → attempt_results), (∀ k j, 0 ≤ (envs k j).socket_rc) →
          ∃ w', sender_thread_loop envs 0 (producer_thread sender_env clock alloc [])
              { gcounter := (gcounter_init mutex_init_rc).2, ctrl := c, trace := [] }
            = some w') := by
  have hq : producer_thread sender_env clock alloc []
      = (List.range sender_env.msg_cnt).map (fun k =>
          (generate_msg sender_env.ip sender_env.port (clock k) k (alloc k)).getD "") := by
    unfold producer_thread
    rw [producer_thread_loop_eq, List.nil_append, ← List.range_eq_range']
    exact filterMap_of_ne_none _ _ (fun k hk => hgen k (List.mem_range.mp hk))
  have hlen : (producer_thread sender_env clock alloc []).length = sender_env.msg_cnt := by
    rw [hq]; simp
  have h0 : (gcounter_init mutex_init_rc).2
      = { started := false, total := 0, success := 0, failure := 0 } := by
    unfold gcounter_init; split_ifs <;> rfl
  refine ⟨hlen, ?_, ?_, ?_⟩
  · intro i hi
    rw [hq]
    have hg := hgen i hi
    cases hgi : generate_msg sender_env.ip sender_env.port (clock i) i (alloc i) with
    | none => exact absurd hgi hg
    | some m => simp [hi, hgi]
  · intro envs w' h
    have hs := sender_thread_loop_some envs _ 0 _ w' (by rw [h0]; simp [UINT32_MOD]) h
    rw [hlen, h0] at hs
    simp only [Nat.zero_add, counter_updates, List.count_nil] at hs
    have ht : w'.gcounter.total = sender_env.msg_cnt := by
      rw [hs.1]; exact Nat.mod_eq_of_lt hM
    refine ⟨ht, ?_, ?_⟩
    · simp [is_task_done, gcounter_get_total, ht]
    · simpa [counter_updates] using hs.2
  · intro envs hs
    exact sender_thread_loop_defined envs hs _ 0 _ hc


/-- C3 at a concrete input: two messages, no allocation failure, a server that answers
every request. -/
theorem producer_then_senders_total_witness :
    (producer_thread env_two (fun _ => 1700000000) (fun _ => (true, true, true)) []).length = 2
      ∧ ∃ w', sender_thread_loop (fun _ _ => results_ok) 0
            (producer_thread env_two (fun _ => 1700000000) (fun _ => (true, true, true)) [])
            { gcounter := (gcounter_init 0).2, ctrl := ctrl0, trace := [] } = some w'
          ∧ gcounter_get_total w'.gcounter = 2
          ∧ is_task_done env_two w'.gcounter = true := by
  have T := producer_then_senders_total env_two (fun _ => 1700000000)
    (fun _ => (true, true, true)) 0 ctrl0 (by decide)
    (by intro i _; simp [generate_msg]) rfl
  have hs : ∀ k j : Nat, (0 : Int) ≤ results_ok.socket_rc := by intro _ _; decide
  obtain ⟨w', hw⟩ := T.2.2.2 (fun _ _ => results_ok) hs
  have R := T.2.2.1 (fun _ _ => results_ok) w' hw
  exact ⟨T.1, w', hw, R.1, R.2.1⟩

/-! ### Argument parsing -/

theorem is_digit_chars_iff (cs : List Char) :
    is_digit_chars cs = true ↔ ∀ c ∈ cs, '0' ≤ c ∧ c ≤ '9' := by
  induction cs with
  | nil => simp [is_digit_chars]
  | cons c rest ih =>
    unfold is_digit_chars
    split_ifs with h
    · simp only [List.mem_cons, forall_eq_or_imp, Bool.false_eq_true, false_iff, not_and]
      intro hc
      rcases h with h | h
      · exact absurd hc.1 (not_le.mpr h)
      · exact absurd hc.2 (not_le.mpr h)
    · rw [ih]
      simp only [List.mem_cons, forall_eq_or_imp]
      have : '0' ≤ c ∧ c ≤ '9' := by
        constructor
        · exact not_lt.mp (fun hlt => h (Or.inl hlt))
        · exact not_lt.mp (fun hlt => h (Or.inr hlt))
      simp [this]

theorem digits_fold_acc (cs : List Char) :
    ∀ a : Nat, cs.foldl (fun acc c => 10 * acc + digit_value c) a
      = a * 10 ^ cs.length + Nat.ofDigits 10 (cs.reverse.map digit_value) := by
  induction cs with
  | nil => intro a; simp
  | cons c rest ih =>
    intro a
    rw [List.foldl_cons, ih, List.reverse_cons, List.map_append, Nat.ofDigits_append]
    simp only [List.map_cons, List.map_nil, Nat.ofDigits_singleton, List.length_map,
      List.length_reverse, List.length_cons]
    ring

theorem atoi_of_decimal (s : String) (hd : is_decimal s) (hv : decimal_value s < 2147483648) :
    atoi s = decimal_value s := by
  obtain ⟨hne, hall⟩ := hd
  obtain ⟨cs⟩ := s
  simp only at hne hall
  cases cs with
  | nil => exact absurd rfl hne
  | cons c rest =>
    have hc := hall c (List.mem_cons_self c rest)
    have hsp : is_space c = false := by
      simp only [is_space, Bool.decide_or, Bool.or_eq_false_iff, decide_eq_false_iff_not]
      refine ⟨?_, ?_, ?_, ?_, ?_, ?_⟩ <;> intro h <;> subst h <;> exact absurd hc.1 (by decide)
    have hm : c ≠ '-' := by intro h; subst h; exact absurd hc.1 (by decide)
    have hp : c ≠ '+' := by intro h; subst h; exact absurd hc.1 (by decide)
    have htake : (c :: rest).takeWhile (fun c => decide ('0' ≤ c ∧ c ≤ '9')) = c :: rest := by
      rw [List.takeWhile_eq_self_iff]
      intro x hx
      simpa using hall x hx
    have hfold : digits_fold (c :: rest) = decimal_value ⟨c :: rest⟩ := by
      unfold digits_fold decimal_value
      rw [digits_fold_acc]
      simp
    have hsign : atoi_sign (c :: rest) = (false, c :: rest) := by
      unfold atoi_sign
      split <;> simp_all
    unfold atoi
    simp only [List.dropWhile_cons, hsp, Bool.false_eq_true, ↓reduceIte, hsign, htake, hfold]
    have : ((decimal_value ⟨c :: rest⟩ : Nat) : Int) < 2147483648 := by exact_mod_cast hv
    simp only [int32_wrap]
    rw [min_eq_left (by omega)]
    have h1 : ((decimal_value ⟨c :: rest⟩ : Nat) : Int) % 4294967296
        = (decimal_value ⟨c :: rest⟩ : Nat) := by omega
    rw [h1]
    split_ifs with hge
    · omega
    · rfl

theorem to_uint32_natCast (n : Nat) (h : n < 2147483648) : to_uint32 (n : Int) = n := by
  unfold to_uint32
  have : ((n : Nat) : Int) % 4294967296 = n := by omega
  rw [this]
  simp

theorem is_digit_string_of_decimal (s : String) (h : is_decimal s) :
    is_digit_string s = true := by
  unfold is_digit_string
  rw [is_digit_chars_iff]
  exact h.2

theorem is_decimal_ne_help (s : String) (h : is_decimal s) : s ≠ "--help" := by
  intro he
  subst he
  exact absurd h (by decide)

/-- C9, the claim as stated fails for a worker count that does not fit the field: with
`"-j" "4294967296"` `parse_args` returns `0` and `sender_cnt` is `0`, not `4294967296`
(`sender_cnt` is a `uint32_t` and `atoi` delivers an `int`). -/
theorem parse_args_worker_count_overflow :
    is_decimal "5" ∧ decimal_value "5" = 5
      ∧ is_decimal "4294967296" ∧ decimal_value "4294967296" = 4294967296
      ∧ parse_args ["post_data", "5", "-j", "4294967296"] env0
          = some (0, { env0 with msg_cnt := 5, sender_cnt := 0 })
      ∧ parse_args ["post_data", "5", "-j", "4294967296"] env0
          ≠ some (0, { env0 with msg_cnt := 5, sender_cnt := 4294967296 }) := by
  refine ⟨by decide, by decide, by decide, by decide, by decide, by decide⟩

/-- C9 (amended): `parse_args` returns `0` and sets the configuration on the accepted
forms. With no argument `msg_cnt = 50000` and `sender_cnt = 10`; with a single decimal
integer `N` fitting in `int` (in particular a positive one) `msg_cnt = N` and
`sender_cnt = 10`; with `N` followed by `"-j"` and a decimal integer `K` that also fits
in `int`, `msg_cnt = N` and `sender_cnt = K`. -/
theorem parse_args_accepted_forms (prog a1 a3 : String) (sender_env : sender_env_t)
    (h1 : is_decimal a1) (hN : decimal_value a1 < 2147483648)
    (h3 : is_decimal a3) (hK : decimal_value a3 < 2147483648) :
    parse_args [prog] sender_env
        = some (0, { sender_env with msg_cnt := 50000, sender_cnt := 10 })
      ∧ parse_args [prog, a1] sender_env
        = some (0, { sender_env with msg_cnt := decimal_value a1, sender_cnt := 10 })
      ∧ parse_args [prog, a1, "-j", a3] sender_env
        = some (0, { sender_env with msg_cnt := decimal_value a1,
                                     sender_cnt := decimal_value a3 }) := by
  have e1 := is_digit_string_of_decimal a1 h1
  have e3 := is_digit_string_of_decimal a3 h3
  have n1 := is_decimal_ne_help a1 h1
  have v1 : to_uint32 (atoi a1) = decimal_value a1 := by
    rw [atoi_of_decimal a1 h1 hN, to_uint32_natCast _ hN]
  have v3 : to_uint32 (atoi a3) = decimal_value a3 := by
    rw [atoi_of_decimal a3 h3 hK, to_uint32_natCast _ hK]
  refine ⟨rfl, ?_, ?_⟩
  · simp [parse_args, n1, e1, v1, SEND_MSG_CNT, SENDER_THREAD_CNT]
  · simp [parse_args, n1, e1, e3, v1, v3, SEND_MSG_CNT, SENDER_THREAD_CNT]

/-- C9 (amended) at a concrete input: `post_data 25 -j 4`. -/
theorem parse_args_accepted_forms_witness :
    is_decimal "25" ∧ decimal_value "25" = 25 ∧ is_decimal "4" ∧ decimal_value "4" = 4
      ∧ parse_args ["post_data", "25", "-j", "4"] env0
        = some (0, { env0 with msg_cnt := decimal_value "25", sender_cnt := decimal_value "4" }) :=
  ⟨by decide, by decide, by decide, by decide,
    (parse_args_accepted_forms "post_data" "25" "4" env0 (by decide) (by decide) (by decide)
      (by decide)).2.2⟩

/-- C10, the claim as stated fails on argument vectors outside the accepted forms that
`parse_args` accepts all the same: a message count of `0`, an empty message count, an
empty worker count, and arguments after the worker count. Each returns `0`, and `main`
goes on to create the threads. -/
theorem parse_args_accepts_unlisted_forms :
    parse_args ["post_data", "0"] env0
        = some (0, { env0 with msg_cnt := 0, sender_cnt := 10 })
      ∧ main_startup 0 0 env0 ["post_data", "0"]
        = some (startup_result.run { env0 with msg_cnt := 0, sender_cnt := 10 })
      ∧ parse_args ["post_data", ""] env0
        = some (0, { env0 with msg_cnt := 0, sender_cnt := 10 })
      ∧ parse_args ["post_data", "5", "-j", ""] env0
        = some (0, { env0 with msg_cnt := 5, sender_cnt := 0 })
      ∧ parse_args ["post_data", "5", "-j", "3", "extra"] env0
        = some (0, { env0 with msg_cnt := 5, sender_cnt := 3 }) := by
  refine ⟨by decide, by decide, by decide, by decide, by decide⟩

/-- C10 (amended): for every argument vector with at least one argument, `parse_args`
returns `0` or `-1`, and it returns `-1` exactly when the first argument is `--help` or
has a character that is not a decimal digit, or there are exactly two arguments, or
there are three or more and the second is not `-j` or the third has a character that is
not a decimal digit. In each of these cases `main` (the connection test and
`prepare_env` having succeeded) prints the usage line and returns `-1`, a non-zero exit
status. In particular a message count with a sign, a letter or any other non-digit is
rejected. -/
theorem parse_args_rejects_iff (prog a1 : String) (rest : List String)
    (sender_env : sender_env_t) :
    ∃ rc e, parse_args (prog :: a1 :: rest) sender_env = some (rc, e)
      ∧ (rc = 0 ∨ rc = -1)
      ∧ (rc ≠ 0 ↔
          (a1 = "--help" ∨ is_digit_string a1 = false ∨ rest.length = 1
            ∨ (2 ≤ rest.length
                ∧ (rest[0]? ≠ some "-j" ∨ rest[1]?.map is_digit_string ≠ some true))))
      ∧ (rc ≠ 0 →
          main_startup 0 0 sender_env (prog :: a1 :: rest)
              = some (startup_result.exit (-1) true)
            ∧ exit_status (-1) ≠ 0)
      ∧ (is_digit_string a1 = true ↔ ∀ c ∈ a1.data, '0' ≤ c ∧ c ≤ '9') := by
  have hmain : ∀ rc e, parse_args (prog :: a1 :: rest) sender_env = some (rc, e) → rc ≠ 0 →
      main_startup 0 0 sender_env (prog :: a1 :: rest) = some (startup_result.exit (-1) true)
        ∧ exit_status (-1) ≠ 0 := by
    intro rc e h hrc
    refine ⟨?_, by decide⟩
    simp [main_startup, h, hrc]
  have hdig : (is_digit_string a1 = true ↔ ∀ c ∈ a1.data, '0' ≤ c ∧ c ≤ '9') :=
    is_digit_chars_iff a1.data
  by_cases hh : a1 = "--help"
  · have hp : parse_args (prog :: a1 :: rest) sender_env = some (-1,
        { sender_env with msg_cnt := SEND_MSG_CNT, sender_cnt := SENDER_THREAD_CNT }) := by
      simp [parse_args, hh]
    exact ⟨_, _, hp, Or.inr rfl, by simp [hh], hmain _ _ hp, hdig⟩
  · by_cases hd : is_digit_string a1 = true
    · match rest with
      | [] =>
        have hp : parse_args [prog, a1] sender_env = some (0,
            { sender_env with msg_cnt := to_uint32 (atoi a1),
                              sender_cnt := SENDER_THREAD_CNT }) := by
          simp [parse_args, hh, hd]
        exact ⟨_, _, hp, Or.inl rfl, by simp [hh, hd], hmain _ _ hp, hdig⟩
      | [a2] =>
        have hp : parse_args [prog, a1, a2] sender_env = some (-1,
            { sender_env with msg_cnt := to_uint32 (atoi a1),
                              sender_cnt := SENDER_THREAD_CNT }) := by
          simp [parse_args, hh, hd]
        exact ⟨_, _, hp, Or.inr rfl, by simp, hmain _ _ hp, hdig⟩
      | a2 :: a3 :: tail =>
        by_cases hj : a2 = "-j"
        · by_cases hd3 : is_digit_string a3 = true
          · have hp : parse_args (prog :: a1 :: a2 :: a3 :: tail) sender_env = some (0,
                { sender_env with msg_cnt := to_uint32 (atoi a1),
                                  sender_cnt := to_uint32 (atoi a3) }) := by
              simp [parse_args, hh, hd, hj, hd3]
            exact ⟨_, _, hp, Or.inl rfl, by simp [hh, hd, hj, hd3], hmain _ _ hp, hdig⟩
          · have hp : parse_args (prog :: a1 :: a2 :: a3 :: tail) sender_env = some (-1,
                { sender_env with msg_cnt := to_uint32 (atoi a1),
                                  sender_cnt := SENDER_THREAD_CNT }) := by
              simp [parse_args, hh, hd, hj, hd3]
            exact ⟨_, _, hp, Or.inr rfl, by simp [hd3], hmain _ _ hp, hdig⟩
        · have hp : parse_args (prog :: a1 :: a2 :: a3 :: tail) sender_env = some (-1,
              { sender_env with msg_cnt := to_uint32 (atoi a1),
                                sender_cnt := SENDER_THREAD_CNT }) := by
            simp [parse_args, hh, hd, hj]
          exact ⟨_, _, hp, Or.inr rfl, by simp [hj], hmain _ _ hp, hdig⟩
    · have hp : parse_args (prog :: a1 :: rest) sender_env = some (-1,
          { sender_env with msg_cnt := SEND_MSG_CNT, sender_cnt := SENDER_THREAD_CNT }) := by
        simp [parse_args, hh, hd]
      have hd' : is_digit_string a1 = false := by simpa using hd
      exact ⟨_, _, hp, Or.inr rfl, by simp [hd'], hmain _ _ hp, hdig⟩

/-! ### Waiting for the response -/

theorem sender_wait_loop_of_ready (c : sender_ctrl_t) (rc : Int) (l : List (Int × Bool))
    (h : c.resp_ready = true) : sender_wait_loop c rc l = (rc, c) := by
  cases l with
  | nil => simp [sender_wait_loop, h]
  | cons x rest => obtain ⟨r, n⟩ := x; simp [sender_wait_loop, h]

/-- Entered with the flag down, the loop of `sender_wait` ends with `0` exactly when some
wake-up returns `0` with the flag raised by `notify_sender`, every wake-up before it
having returned `0` with the flag still down. -/
theorem sender_wait_loop_zero_iff (l : List (Int × Bool)) (c : sender_ctrl_t) (rc : Int)
    (h : c.resp_ready = false) :
    (sender_wait_loop c rc l).1 = 0
      ↔ ∃ pre post, l = pre ++ (0, true) :: post ∧ ∀ x ∈ pre, x = (0, false) := by
  induction l generalizing c rc with
  | nil => simp [sender_wait_loop, h, ETIMEDOUT]
  | cons x rest ih =>
    obtain ⟨r, n⟩ := x
    unfold sender_wait_loop
    simp only [h, Bool.false_eq_true, ↓reduceIte]
    by_cases hr : r = 0
    · subst hr
      cases n with
      | true =>
        simp only [↓reduceIte, ne_eq, not_true_eq_false]
        rw [sender_wait_loop_of_ready _ _ _ rfl]
        simp only [true_iff]
        exact ⟨[], rest, rfl, by simp⟩
      | false =>
        simp only [Bool.false_eq_true, ↓reduceIte, ne_eq, not_true_eq_false]
        rw [ih c 0 h]
        constructor
        · rintro ⟨pre, post, hl, hp⟩
          refine ⟨(0, false) :: pre, post, by simp [hl], ?_⟩
          intro x hx
          rcases List.mem_cons.mp hx with hx | hx
          · exact hx
          · exact hp x hx
        · rintro ⟨pre, post, hl, hp⟩
          cases pre with
          | nil => simp at hl
          | cons y pre' =>
            simp only [List.cons_append, List.cons.injEq] at hl
            exact ⟨pre', post, hl.2, fun x hx => hp x (List.mem_cons_of_mem y hx)⟩
    · simp only [ne_eq, hr, not_false_eq_true, ↓reduceIte]
      constructor
      · intro h0; cases h0
      · rintro ⟨pre, post, hl, hp⟩
        cases pre with
        | nil =>
          simp only [List.nil_append, List.cons.injEq, Prod.mk.injEq] at hl
          exact absurd hl.1.1 hr
        | cons y pre' =>
          simp only [List.cons_append, List.cons.injEq] at hl
          have := hp y (List.mem_cons_self y pre')
          rw [← hl.1] at this
          simp only [Prod.mk.injEq] at this
          exact absurd this.1 hr

/-- When the loop of `sender_wait` ends with a non-zero code, the code is that of a
failed `pthread_cond_timedwait` or the `ETIMEDOUT` of the passed deadline. -/
theorem sender_wait_loop_nonzero (l : List (Int × Bool)) (c : sender_ctrl_t)
    (h : (sender_wait_loop c 0 l).1 ≠ 0) :
    (sender_wait_loop c 0 l).1 = ETIMEDOUT ∨ ∃ x ∈ l, x.1 = (sender_wait_loop c 0 l).1 := by
  induction l generalizing c with
  | nil =>
    unfold sender_wait_loop at h ⊢
    split_ifs at h ⊢ with hr
    · simp at h
    · left; rfl
  | cons x rest ih =>
    obtain ⟨r, n⟩ := x
    simp only [sender_wait_loop] at h ⊢
    by_cases hr : c.resp_ready = true
    · simp [hr] at h
    · simp only [hr, Bool.false_eq_true, ↓reduceIte] at h ⊢
      by_cases hz : r = 0
      · subst hz
        simp only [ne_eq, not_true_eq_false, ↓reduceIte] at h ⊢
        rcases ih _ h with h1 | ⟨x, hx, hx2⟩
        · left; exact h1
        · right; exact ⟨x, List.mem_cons_of_mem _ hx, hx2⟩
      · simp only [ne_eq, hz, not_false_eq_true, ↓reduceIte] at h ⊢
        right
        exact ⟨(r, n), List.mem_cons_self _ _, rfl⟩

/-- In `sender_wait`, called with the flag down: the result is `0` exactly when
`resp_ready` is observed true, at the first test or after a wake-up. -/
theorem sender_wait_zero_iff (c : sender_ctrl_t) (notified_early : Bool)
    (wakeups : List (Int × Bool)) (h : c.resp_ready = false) :
    (sender_wait c notified_early wakeups).1 = 0
      ↔ (notified_early = true
          ∨ ∃ pre post, wakeups = pre ++ (0, true) :: post ∧ ∀ x ∈ pre, x = (0, false)) := by
  unfold sender_wait
  cases notified_early with
  | true =>
    simp only [↓reduceIte, true_or, iff_true]
    rw [sender_wait_loop_of_ready _ _ _ rfl]
  | false =>
    simp only [Bool.false_eq_true, ↓reduceIte, false_or]
    exact sender_wait_loop_zero_iff wakeups c 0 h

theorem sender_wait_reset_zero_iff (r : attempt_results) (c : sender_ctrl_t) :
    (sender_wait { c with resp_ready := false } r.notified_early r.wakeups).1 = 0
      ↔ ready_observed r :=
  sender_wait_zero_iff _ _ _ rfl

/-- The result and the calls of `wait_for_resp`, case by case. -/
theorem wait_for_resp_cases (r : attempt_results) (w : world) (hf : w.ctrl.freed = false) :
    ∃ rc w1, wait_for_resp r w = some (rc, w1)
      ∧ ((r.epoll_add_rc ≠ 0 ∧ rc = -1
            ∧ w1.trace = w.trace
                ++ [action.reset_resp_ready, action.epoll_add w.ctrl.sockfd])
        ∨ (r.epoll_add_rc = 0 ∧ ¬ ready_observed r ∧ rc = -1
            ∧ w1.trace = w.trace
                ++ [action.reset_resp_ready, action.epoll_add w.ctrl.sockfd, action.wait,
                    action.epoll_del w.ctrl.sockfd])
        ∨ (r.epoll_add_rc = 0 ∧ ready_observed r ∧ r.read_rc ≤ 0 ∧ rc = -1
            ∧ w1.trace = w.trace
                ++ [action.reset_resp_ready, action.epoll_add w.ctrl.sockfd, action.wait,
                    action.epoll_del w.ctrl.sockfd, action.read w.ctrl.sockfd])
        ∨ (r.epoll_add_rc = 0 ∧ ready_observed r ∧ 0 < r.read_rc ∧ rc = r.read_rc
            ∧ w1.trace = w.trace
                ++ [action.reset_resp_ready, action.epoll_add w.ctrl.sockfd, action.wait,
                    action.epoll_del w.ctrl.sockfd, action.read w.ctrl.sockfd])) := by
  have hz := sender_wait_reset_zero_iff r w.ctrl
  have hfld := sender_wait_fields { w.ctrl with resp_ready := false } r.notified_early r.wakeups
  simp only at hfld hz
  simp only [wait_for_resp]
  rw [if_neg (by simp [hf])]
  by_cases he : r.epoll_add_rc = 0
  · rw [if_neg (by simp [he])]
    by_cases hw : (sender_wait { w.ctrl with resp_ready := false }
        r.notified_early r.wakeups).1 = 0
    · simp only at hw
      have hro := hz.mp hw
      rw [if_neg (by simp [hw])]
      by_cases hrd : 0 < r.read_rc
      · rw [if_pos hrd]
        refine ⟨_, _, rfl, Or.inr (Or.inr (Or.inr ⟨he, hro, hrd, rfl, ?_⟩))⟩
        simp [hfld.2.1]
      · have hle : r.read_rc ≤ 0 := by omega
        rw [if_neg hrd]
        by_cases h0 : r.read_rc = 0
        · rw [if_pos h0]
          refine ⟨_, _, rfl, Or.inr (Or.inr (Or.inl ⟨he, hro, hle, rfl, ?_⟩))⟩
          simp [hfld.2.1]
        · rw [if_neg h0]
          refine ⟨_, _, rfl, Or.inr (Or.inr (Or.inl ⟨he, hro, hle, rfl, ?_⟩))⟩
          simp [hfld.2.1]
    · simp only at hw
      have hro : ¬ ready_observed r := fun h => hw (hz.mpr h)
      rw [if_pos hw]
      refine ⟨_, _, rfl, Or.inr (Or.inl ⟨he, hro, rfl, ?_⟩)⟩
      simp
  · rw [if_pos he]
    refine ⟨_, _, rfl, Or.inl ⟨he, rfl, ?_⟩⟩
    simp

/-- The result and the calls of one attempt, case by case: the calls `send_http_msg_once`
adds to the trace are `gcounter_signal_start` (with its broadcast, if any), `write`, and
then `tail`. -/
theorem send_http_msg_once_cases (r : attempt_results) (msg : String) (w : world)
    (hf : w.ctrl.freed = false) :
    ∃ rc w1 tail, send_http_msg_once r msg w = some (rc, w1)
      ∧ w1.trace = w.trace
          ++ (action.signal_start
                :: List.replicate (gcounter_signal_start w.gcounter).2 action.broadcast)
          ++ action.write w.ctrl.sockfd msg.utf8ByteSize :: tail
      ∧ ((r.write_rc = -1 ∧ rc = -1 ∧ tail = [])
        ∨ (r.write_rc ≠ -1 ∧ r.epoll_add_rc ≠ 0 ∧ rc = -1
            ∧ tail = [action.reset_resp_ready, action.epoll_add w.ctrl.sockfd])
        ∨ (r.write_rc ≠ -1 ∧ r.epoll_add_rc = 0 ∧ ¬ ready_observed r ∧ rc = -1
            ∧ tail = [action.reset_resp_ready, action.epoll_add w.ctrl.sockfd, action.wait,
                      action.epoll_del w.ctrl.sockfd])
        ∨ (r.write_rc ≠ -1 ∧ r.epoll_add_rc = 0 ∧ ready_observed r ∧ r.read_rc ≤ 0 ∧ rc = -1
            ∧ tail = [action.reset_resp_ready, action.epoll_add w.ctrl.sockfd, action.wait,
                      action.epoll_del w.ctrl.sockfd, action.read w.ctrl.sockfd])
        ∨ (r.write_rc ≠ -1 ∧ r.epoll_add_rc = 0 ∧ ready_observed r ∧ 0 < r.read_rc ∧ rc = 0
            ∧ tail = [action.reset_resp_ready, action.epoll_add w.ctrl.sockfd, action.wait,
                      action.epoll_del w.ctrl.sockfd, action.read w.ctrl.sockfd])) := by
  simp only [send_http_msg_once]
  rw [if_neg (by simp [hf])]
  by_cases hwr : r.write_rc = -1
  · rw [if_pos hwr]
    exact ⟨_, _, [], rfl, by simp, Or.inl ⟨hwr, rfl, rfl⟩⟩
  · rw [if_neg hwr]
    obtain ⟨rc, w1, hw1, hc⟩ := wait_for_resp_cases r
      { gcounter := (gcounter_signal_start w.gcounter).1, ctrl := w.ctrl,
        trace := w.trace ++ [action.signal_start]
          ++ List.replicate (gcounter_signal_start w.gcounter).2 action.broadcast
          ++ [action.write w.ctrl.sockfd msg.utf8ByteSize] } hf
    rw [hw1]
    dsimp only at hc ⊢
    rcases hc with ⟨he, hrc, ht⟩ | ⟨he, hro, hrc, ht⟩ | ⟨he, hro, hrd, hrc, ht⟩
      | ⟨he, hro, hrd, hrc, ht⟩
    · subst hrc
      rw [if_pos rfl]
      exact ⟨_, _, _, rfl, by rw [ht]; simp, Or.inr (Or.inl ⟨hwr, he, rfl, rfl⟩)⟩
    · subst hrc
      rw [if_pos rfl]
      exact ⟨_, _, _, rfl, by rw [ht]; simp, Or.inr (Or.inr (Or.inl ⟨hwr, he, hro, rfl, rfl⟩))⟩
    · subst hrc
      rw [if_pos rfl]
      exact ⟨_, _, _, rfl, by rw [ht]; simp,
        Or.inr (Or.inr (Or.inr (Or.inl ⟨hwr, he, hro, hrd, rfl, rfl⟩)))⟩
    · subst hrc
      rw [if_neg (by omega)]
      exact ⟨_, _, _, rfl, by rw [ht]; simp,
        Or.inr (Or.inr (Or.inr (Or.inr ⟨hwr, he, hro, hrd, rfl, rfl⟩)))⟩

/-- C13: `wait_for_resp` returns a positive value or `-1`, and the value is positive
(which `send_http_msg_once` maps to `0`) if and only if the epoll registration
succeeded, `sender_wait` ended because `resp_ready` was observed true (it returned `0`,
not a timeout or a wait error) and the read returned a positive byte count. On a timeout
or wait error it returns `-1` and no `read` is issued; on a read of zero bytes or a read
error it returns `-1`. -/
theorem wait_for_resp_success_iff (r : attempt_results) (w : world)
    (hf : w.ctrl.freed = false) :
    ∃ rc w1, wait_for_resp r w = some (rc, w1)
      ∧ (0 < rc ∨ rc = -1)
      ∧ (0 < rc ↔ r.epoll_add_rc = 0 ∧ ready_observed r ∧ 0 < r.read_rc)
      ∧ ((sender_wait { w.ctrl with resp_ready := false } r.notified_early r.wakeups).1 = 0
          ↔ ready_observed r)
      ∧ (r.epoll_add_rc = 0 → ¬ ready_observed r →
          rc = -1
            ∧ w1.trace = w.trace
                ++ [action.reset_resp_ready, action.epoll_add w.ctrl.sockfd, action.wait,
                    action.epoll_del w.ctrl.sockfd]
            ∧ ∀ fd, action.read fd ∉ w1.trace.drop w.trace.length)
      ∧ (r.read_rc ≤ 0 → rc = -1)
      ∧ (∀ msg, ∃ rc' w', send_http_msg_once r msg w = some (rc', w')
          ∧ (rc' = 0 ∨ rc' = -1)
          ∧ (rc' = 0 ↔ r.write_rc ≠ -1 ∧ 0 < rc)) := by
  obtain ⟨rc, w1, h, hc⟩ := wait_for_resp_cases r w hf
  refine ⟨rc, w1, h, ?_, ?_, sender_wait_reset_zero_iff r w.ctrl, ?_, ?_, ?_⟩
  · rcases hc with ⟨_, hrc, _⟩ | ⟨_, _, hrc, _⟩ | ⟨_, _, _, hrc, _⟩ | ⟨_, _, hrd, hrc, _⟩
    · exact Or.inr hrc
    · exact Or.inr hrc
    · exact Or.inr hrc
    · left; rw [hrc]; exact hrd
  · rcases hc with ⟨he, hrc, _⟩ | ⟨_, hro, hrc, _⟩ | ⟨_, _, hrd, hrc, _⟩ | ⟨he, hro, hrd, hrc, _⟩
    · subst hrc; constructor
      · intro h0; omega
      · intro h0; exact absurd h0.1 he
    · subst hrc; constructor
      · intro h0; omega
      · intro h0; exact absurd h0.2.1 hro
    · subst hrc; constructor
      · intro h0; omega
      · intro h0; omega
    · subst hrc; exact ⟨fun _ => ⟨he, hro, hrd⟩, fun _ => hrd⟩
  · intro he hro
    rcases hc with ⟨he', _, _⟩ | ⟨_, _, hrc, ht⟩ | ⟨_, hro', _⟩ | ⟨_, hro', _⟩
    · exact absurd he he'
    · refine ⟨hrc, ht, ?_⟩
      intro fd
      rw [ht]
      simp
    · exact absurd hro' hro
    · exact absurd hro' hro
  · intro hrd
    rcases hc with ⟨_, hrc, _⟩ | ⟨_, _, hrc, _⟩ | ⟨_, _, _, hrc, _⟩ | ⟨_, _, hrd', _, _⟩
    · exact hrc
    · exact hrc
    · exact hrc
    · omega
  · intro msg
    obtain ⟨rc', w', tail, h', _, hc'⟩ := send_http_msg_once_cases r msg w hf
    refine ⟨rc', w', h', ?_, ?_⟩
    · rcases hc' with ⟨_, hrc, _⟩ | ⟨_, _, hrc, _⟩ | ⟨_, _, _, hrc, _⟩ | ⟨_, _, _, _, hrc, _⟩
        | ⟨_, _, _, _, hrc, _⟩
      · exact Or.inr hrc
      · exact Or.inr hrc
      · exact Or.inr hrc
      · exact Or.inr hrc
      · exact Or.inl hrc
    · have hpos : 0 < rc ↔ r.epoll_add_rc = 0 ∧ ready_observed r ∧ 0 < r.read_rc := by
        rcases hc with ⟨he, hrc, _⟩ | ⟨_, hro, hrc, _⟩ | ⟨_, _, hrd, hrc, _⟩
          | ⟨he, hro, hrd, hrc, _⟩
        · subst hrc; exact ⟨fun h0 => by omega, fun h0 => absurd h0.1 he⟩
        · subst hrc; exact ⟨fun h0 => by omega, fun h0 => absurd h0.2.1 hro⟩
        · subst hrc; exact ⟨fun h0 => by omega, fun h0 => by omega⟩
        · subst hrc; exact ⟨fun _ => ⟨he, hro, hrd⟩, fun _ => hrd⟩
      rw [hpos]
      rcases hc' with ⟨hw, hrc, _⟩ | ⟨hw, he, hrc, _⟩ | ⟨hw, he, hro, hrc, _⟩
        | ⟨hw, he, hro, hrd, hrc, _⟩ | ⟨hw, he, hro, hrd, hrc, _⟩
      · subst hrc; exact ⟨fun h0 => by omega, fun h0 => absurd hw h0.1⟩
      · subst hrc; exact ⟨fun h0 => by omega, fun h0 => absurd h0.2.1 he⟩
      · subst hrc; exact ⟨fun h0 => by omega, fun h0 => absurd h0.2.2.1 hro⟩
      · subst hrc; exact ⟨fun h0 => by omega, fun h0 => by omega⟩
      · subst hrc; exact ⟨fun _ => ⟨hw, he, hro, hrd⟩, fun _ => rfl⟩

/-- C13 at a concrete input: the registration succeeds, the first wake-up finds the flag
raised, the read returns 17 bytes; the result is positive. -/
theorem wait_for_resp_success_iff_witness :
    world0.ctrl.freed = false
      ∧ ready_observed results_ok
      ∧ ∃ rc w1, wait_for_resp results_ok world0 = some (rc, w1)
          ∧ (0 < rc ↔ results_ok.epoll_add_rc = 0 ∧ ready_observed results_ok
              ∧ 0 < results_ok.read_rc)
          ∧ 0 < rc := by
  have hro : ready_observed results_ok := Or.inr ⟨[], [], rfl, by simp⟩
  obtain ⟨rc, w1, h, _, hiff, _⟩ := wait_for_resp_success_iff results_ok world0 rfl
  exact ⟨rfl, hro, rc, w1, h, hiff, hiff.mpr ⟨rfl, hro, by decide⟩⟩

/-! ### The write step and the order of the steps -/

/-- A failed write (`write` returns `-1`) makes the attempt a send failure: the attempt
returns `-1` after the `write` call, with no registration, wait or read, and
`send_http_msg` closes the socket, calls `sender_socket_create` and goes on with the
next pass, one retry being consumed. -/
theorem send_http_msg_write_failure (env : Nat → attempt_results) (msg : String)
    (n i : Nat) (w : world) (hf : w.ctrl.freed = false) (hwr : (env i).write_rc = -1) :
    ∃ w1 w2, send_http_msg_once (env i) msg w = some (-1, w1)
      ∧ w1.trace = w.trace
          ++ (action.signal_start
                :: List.replicate (gcounter_signal_start w.gcounter).2 action.broadcast)
          ++ [action.write w.ctrl.sockfd msg.utf8ByteSize]
      ∧ sender_socket_close w1 = some w2
      ∧ w2.trace = w1.trace ++ [action.close w.ctrl.sockfd]
      ∧ send_http_msg_loop env msg (n + 1) i w
          = (match sender_socket_create (env i) w2 with
              | none => none
              | some (_, w3) => send_http_msg_loop env msg n (i + 1) w3) := by
  have h1 : send_http_msg_once (env i) msg w = some (-1,
      { gcounter := (gcounter_signal_start w.gcounter).1, ctrl := w.ctrl,
        trace := w.trace ++ [action.signal_start]
          ++ List.replicate (gcounter_signal_start w.gcounter).2 action.broadcast
          ++ [action.write w.ctrl.sockfd msg.utf8ByteSize] }) := by
    simp only [send_http_msg_once]
    rw [if_neg (by simp [hf]), if_pos hwr]
  have h2 : sender_socket_close
      { gcounter := (gcounter_signal_start w.gcounter).1, ctrl := w.ctrl,
        trace := w.trace ++ [action.signal_start]
          ++ List.replicate (gcounter_signal_start w.gcounter).2 action.broadcast
          ++ [action.write w.ctrl.sockfd msg.utf8ByteSize] }
      = some
      { gcounter := (gcounter_signal_start w.gcounter).1, ctrl := w.ctrl,
        trace := w.trace ++ [action.signal_start]
          ++ List.replicate (gcounter_signal_start w.gcounter).2 action.broadcast
          ++ [action.write w.ctrl.sockfd msg.utf8ByteSize] ++ [action.close w.ctrl.sockfd] } := by
    simp [sender_socket_close, hf]
  refine ⟨_, _, h1, by simp, h2, rfl, ?_⟩
  rw [send_http_msg_loop, h1]
  dsimp only
  rw [if_neg (by decide), h2]

/-- C12, where the code leaves the claim: the payload `abc` has length 3 and `write`
returns 1. `send_http_msg_once` only tests the result against `-1` (client.c:344), so it
goes on to wait for a response; the event loop notifies the sender, the read returns
data, and the attempt returns `0`: `send_http_msg` counts a success after one attempt,
with no reconnect and no retry consumed. -/
theorem send_http_msg_short_write_counted_success :
    (results_short_write.write_rc : Int) < ("abc".utf8ByteSize : Int)
      ∧ results_short_write.write_rc ≠ -1
      ∧ (∃ w1, send_http_msg_once results_short_write "abc" world0 = some (0, w1)
          ∧ action.wait ∈ w1.trace
          ∧ action.read 4 ∈ w1.trace)
      ∧ (∃ w', send_http_msg (fun _ => results_short_write) "abc" world0 = some w'
          ∧ attempts w'.trace = 1
          ∧ reconnect_calls w'.trace = 0
          ∧ w'.gcounter = { started := true, total := 1, success := 1, failure := 0 }) := by
  refine ⟨by decide, by decide, ⟨_, rfl, by decide, by decide⟩, ⟨_, rfl, ?_, ?_, ?_⟩⟩ <;>
    decide

/-- C14, the claim as stated fails on the order of the reset and the write: in an
attempt the `write` is issued first and `resp_ready` is reset afterwards, at the start of
`wait_for_resp`. After a served request the flag is still true, so the next payload is
written with the flag up, and an attempt whose write fails does not reset the flag. -/
theorem send_http_msg_once_write_before_reset :
    ∃ w1 w2, send_http_msg_once results_ok "abc" world0 = some (0, w1)
      ∧ w1.trace = [action.signal_start, action.broadcast, action.write 4 3,
          action.reset_resp_ready, action.epoll_add 4, action.wait, action.epoll_del 4,
          action.read 4]
      ∧ precedes action.reset_resp_ready (action.write 4 3) w1.trace = false
      ∧ precedes (action.write 4 3) action.reset_resp_ready w1.trace = true
      ∧ w1.ctrl.resp_ready = true
      ∧ send_http_msg_once results_refused "abc" w1 = some (-1, w2)
      ∧ w2.trace = w1.trace ++ [action.signal_start, action.write 4 3]
      ∧ w2.ctrl.resp_ready = true := by
  refine ⟨_, _, rfl, ?_, ?_, ?_, ?_, rfl, ?_, ?_⟩ <;> decide

/-- C14 (amended): in every attempt of `send_http_msg_once` whose `write` does not
return `-1`, `resp_ready` is reset to false once, after the payload is written and before
the read-readiness registration; whenever the attempt waits, the registration precedes
the wait; the reset never precedes the write. An attempt whose `write` returns `-1`
neither resets the flag nor registers nor waits. Here `t` is the list of calls the
attempt adds to the trace. -/
theorem send_http_msg_once_order (r : attempt_results) (msg : String) (w : world)
    (hf : w.ctrl.freed = false) :
    ∃ rc w1 t, send_http_msg_once r msg w = some (rc, w1)
      ∧ w1.trace = w.trace ++ t
      ∧ precedes action.reset_resp_ready (action.write w.ctrl.sockfd msg.utf8ByteSize) t = false
      ∧ (r.write_rc ≠ -1 →
          precedes (action.write w.ctrl.sockfd msg.utf8ByteSize) action.reset_resp_ready t = true
            ∧ precedes action.reset_resp_ready (action.epoll_add w.ctrl.sockfd) t = true
            ∧ t.count action.reset_resp_ready = 1)
      ∧ (action.wait ∈ t ↔ r.write_rc ≠ -1 ∧ r.epoll_add_rc = 0)
      ∧ (action.wait ∈ t → precedes (action.epoll_add w.ctrl.sockfd) action.wait t = true)
      ∧ (r.write_rc = -1 →
          action.reset_resp_ready ∉ t ∧ action.epoll_add w.ctrl.sockfd ∉ t
            ∧ action.wait ∉ t ∧ w1.ctrl.resp_ready = w.ctrl.resp_ready) := by
  obtain ⟨rc, w1, tail, h, ht, hc⟩ := send_http_msg_once_cases r msg w hf
  have hctrl : r.write_rc = -1 → w1.ctrl.resp_ready = w.ctrl.resp_ready := by
    intro hwr
    simp only [send_http_msg_once] at h
    rw [if_neg (by simp [hf]), if_pos hwr] at h
    simp only [Option.some.injEq, Prod.mk.injEq] at h
    rw [← h.2]
  refine ⟨rc, w1, _, h, by rw [ht, List.append_assoc], ?_⟩
  have hb : (gcounter_signal_start w.gcounter).2 = 0 ∨ (gcounter_signal_start w.gcounter).2 = 1 := by
    unfold gcounter_signal_start
    cases w.gcounter.started <;> simp
  rcases hc with ⟨hw, _, htl⟩ | ⟨hw, he, _, htl⟩ | ⟨hw, he, _, _, htl⟩
    | ⟨hw, he, _, _, _, htl⟩ | ⟨hw, he, _, _, _, htl⟩ <;>
  rcases hb with hb | hb <;>
  · rw [htl, hb]
    simp [precedes, hw, hctrl, *]


/-- C14 (amended) at a concrete input: a served request on a fresh connection; the
write comes before the reset, the reset before the registration, the registration before
the wait. -/
theorem send_http_msg_once_order_witness :
    world0.ctrl.freed = false
      ∧ results_ok.write_rc ≠ -1
      ∧ ∃ rc w1 t, send_http_msg_once results_ok "abc" world0 = some (rc, w1)
          ∧ w1.trace = world0.trace ++ t
          ∧ precedes action.reset_resp_ready
              (action.write world0.ctrl.sockfd "abc".utf8ByteSize) t = false
          ∧ precedes (action.write world0.ctrl.sockfd "abc".utf8ByteSize)
              action.reset_resp_ready t = true
          ∧ precedes action.reset_resp_ready (action.epoll_add world0.ctrl.sockfd) t = true
          ∧ precedes (action.epoll_add world0.ctrl.sockfd) action.wait t = true := by
  obtain ⟨rc, w1, t, h, ht, h1, h2, h3, h4, _⟩ :=
    send_http_msg_once_order results_ok "abc" world0 rfl
  have hw : results_ok.write_rc ≠ -1 := by decide
  have h2' := h2 hw
  exact ⟨rfl, hw, rc, w1, t, h, ht, h1, h2'.1, h2'.2.1, h4 (h3.mpr ⟨hw, rfl⟩)⟩

/-! ### The generated message -/

theorem int32_wrap_of_range (v : Int) (h1 : -2147483648 ≤ v) (h2 : v < 2147483648) :
    int32_wrap v = v := by
  unfold int32_wrap
  simp only
  split_ifs with h <;> omega

theorem utf8ByteSize_le (s : String) : s.utf8ByteSize ≤ 4 * s.length := by
  obtain ⟨cs⟩ := s
  simp only [String.utf8ByteSize_mk, String.length]
  induction cs with
  | nil => simp
  | cons c rest ih =>
    have := c.utf8Size_le_four
    simp only [String.utf8Len_cons, List.length_cons]
    omega

theorem toString_int_length (v : Int) (h1 : -2147483648 ≤ v) (h2 : v < 2147483648) :
    (toString v).length ≤ 11 := by
  cases v with
  | ofNat m =>
    have hm : m < 10 ^ 10 := by
      have : (m : Int) < 2147483648 := h2
      omega
    have := Nat.repr_length m 10 (by decide) hm
    show (Nat.repr m).length ≤ 11
    omega
  | negSucc m =>
    have hm : m + 1 < 10 ^ 10 := by
      have : Int.negSucc m = -((m : Int) + 1) := rfl
      rw [this] at h1
      omega
    have := Nat.repr_length (m + 1) 10 (by decide) hm
    show ("-" ++ Nat.repr (m + 1)).length ≤ 11
    simp only [String.length_append]
    have : "-".length = 1 := rfl
    omega

theorem fmt_d_of_range (v : Int) (h1 : -2147483648 ≤ v) (h2 : v < 2147483648) :
    fmt_d v = toString v := by
  unfold fmt_d
  rw [int32_wrap_of_range v h1 h2]

theorem fmt_d_of_nat (n : Nat) (h : n < 2147483648) : fmt_d (n : Int) = toString n := by
  rw [fmt_d_of_range (n : Int) (by omega) (by omega)]
  rfl

theorem msg_body_length (t : Int) (i : Nat) : (msg_body t i).utf8ByteSize < 2147483648 := by
  have h := utf8ByteSize_le (msg_body t i)
  have hb : ∀ v : Int, (fmt_d v).length ≤ 11 := by
    intro v
    unfold fmt_d
    apply toString_int_length
    · unfold int32_wrap; simp only; split_ifs <;> omega
    · unfold int32_wrap; simp only; split_ifs <;> omega
  have h1 := hb t
  have h2 := hb (i : Int)
  have hl : (msg_body t i).length
      = 16 + (fmt_d t).length + 1 + (fmt_d (i : Int)).length + 2 := by
    unfold msg_body
    simp only [String.length_append]
    rfl
  omega

/-- Within the range of `int`, `generate_msg` returns the header block followed by the
body, the body carrying the timestamp and the index in decimal and the header carrying
the decimal byte length of the body. -/
theorem generate_msg_text (ip : String) (port t : Int) (i : Nat)
    (hp : -2147483648 ≤ port ∧ port < 2147483648)
    (ht : -2147483648 ≤ t ∧ t < 2147483648) (hi : i < 2147483648) :
    generate_msg ip port t i (true, true, true)
      = some (("POST /graph/ HTTP/1.1\r\n" ++
          "Content-length: "
            ++ toString ("\x7b\"txn_id\": \"txn_" ++ toString t ++ "_" ++ toString i
                ++ "\"\x7d").utf8ByteSize ++ "\r\n" ++
          "Host: " ++ ip ++ ":" ++ toString port ++ "\r\n" ++
          "Content-type: application/json\r\n" ++
          "\r\n")
        ++ ("\x7b\"txn_id\": \"txn_" ++ toString t ++ "_" ++ toString i ++ "\"\x7d")) := by
  have hlen := msg_body_length t i
  have hb : msg_body t i
      = "\x7b\"txn_id\": \"txn_" ++ toString t ++ "_" ++ toString i ++ "\"\x7d" := by
    unfold msg_body
    rw [fmt_d_of_range t ht.1 ht.2, fmt_d_of_nat i hi]
  simp only [generate_msg, Bool.not_true, Bool.false_eq_true, ↓reduceIte, msg_header]
  rw [fmt_d_of_nat _ hlen, fmt_d_of_range port hp.1 hp.2, hb]

/-- C11, where the code leaves the claim: the templates print the timestamp (a `time_t`)
and the index (a `uint32_t`) with `%d`, which reads an `int`. For the index `2147483648`
the body carries `-2147483648`, and from 19 January 2038 on the timestamp is printed
negative as well, whereas the claim asks for the index and the timestamp themselves. The
header and its `Content-length` still fit the body that was produced. -/
theorem generate_msg_index_printed_as_int :
    generate_msg "127.0.0.1" 8080 1700000000 2147483648 (true, true, true)
        = some ("POST /graph/ HTTP/1.1\r\nContent-length: 40\r\nHost: 127.0.0.1:8080\r\n"
            ++ "Content-type: application/json\r\n\r\n"
            ++ "\x7b\"txn_id\": \"txn_1700000000_-2147483648\"\x7d")
      ∧ generate_msg "127.0.0.1" 8080 1700000000 2147483648 (true, true, true)
        ≠ some ("POST /graph/ HTTP/1.1\r\nContent-length: 39\r\nHost: 127.0.0.1:8080\r\n"
            ++ "Content-type: application/json\r\n\r\n"
            ++ "\x7b\"txn_id\": \"txn_1700000000_2147483648\"\x7d")
      ∧ generate_msg "127.0.0.1" 8080 time_2038 0 (true, true, true)
        = some ("POST /graph/ HTTP/1.1\r\nContent-length: 31\r\nHost: 127.0.0.1:8080\r\n"
            ++ "Content-type: application/json\r\n\r\n"
            ++ "\x7b\"txn_id\": \"txn_-2147483648_0\"\x7d") := by
  refine ⟨by decide, by decide, by decide⟩

end HttpPost
